import Mathlib

/-!
# CQL: aggregate functions, columns, rows, documents, snapshots and file locks

A shallow embedding of `src/cql_api.cpp` and `src/hdr/data_structures.h`.

Conventions of the embedding

* `int`, `long` and `size_t` values are unbounded integers / naturals.  Every
  arithmetic expression of the embedded functions is `10000 + size` or
  `index + 1`; they stay below `2^31` for every table with fewer than
  `2^31 - 10000` columns, which is the range the embedding covers.
* `float` and `double` are exact rationals extended with the results of a
  division by zero (`Double`); rounding and signed zeros are not modelled.
* A C++ exception and an invalid pointer dereference are the two `Fault`s; a
  function that can meet one returns `Except Fault _`.
* `std::map` / `std::unordered_map` are association lists.  `std::map` keeps
  its entries in key order; the order of an `unordered_map` is unspecified and
  the list order of the embedding carries no meaning for it.
* `std::random_device` / `std::mt19937` are an entropy source handed to the
  function as the list of naturals it delivers, one for every `dist(generator)`.
* `time(NULL)`, `std::rand()`, the outcome of opening a file, the Windows
  system calls and `std::to_string(float)` are handed to the function that
  reads them.
-/

namespace CQL

/-! ## Values -/

/-- Values of the C++ types `float` and `double`. -/
inductive Double where
  | fin (q : ℚ)
  | posInf
  | negInf
  | nan
  deriving DecidableEq

namespace Double

/-- Conversion `long -> double`. -/
def ofLong (n : Int) : Double := fin n

/-- Operator `+` on doubles. -/
def add : Double → Double → Double
  | fin a, fin b => fin (a + b)
  | nan, _ => nan
  | _, nan => nan
  | posInf, negInf => nan
  | negInf, posInf => nan
  | posInf, _ => posInf
  | _, posInf => posInf
  | negInf, _ => negInf
  | _, negInf => negInf

/-- Operator `/` on doubles; a finite value divided by zero is `nan` (0/0) or
an infinity. -/
def div : Double → Double → Double
  | nan, _ => nan
  | _, nan => nan
  | fin a, fin b =>
    if b = 0 then (if a = 0 then nan else if 0 < a then posInf else negInf)
    else fin (a / b)
  | fin _, _ => fin 0
  | posInf, fin b => if 0 ≤ b then posInf else negInf
  | negInf, fin b => if 0 ≤ b then negInf else posInf
  | _, _ => nan

/-- Operator `<` on doubles; every comparison with `nan` is false. -/
def lt : Double → Double → Bool
  | fin a, fin b => decide (a < b)
  | negInf, fin _ => true
  | negInf, posInf => true
  | fin _, posInf => true
  | _, _ => false

end Double

/-- The `std::type_info` of the types a row's `std::any` is tested against. -/
inductive TypeId where
  | int
  | long
  | float
  | string
  | bool
  | double
  deriving DecidableEq

/-- The content of a `std::any` that has a value: one of the `CQLDataTypes`
(`CQL_INT = int`, `CQL_BIG_INT = long`, `CQL_DECIMNAL = float`,
`CQL_TEXT = std::string`, `CQL_BOOLEAN = bool`), or a `double`, the type the
aggregate functions cast to. -/
inductive AnyValue where
  | CQL_INT (v : Int)
  | CQL_BIG_INT (v : Int)
  | CQL_DECIMNAL (v : Double)
  | CQL_TEXT (s : String)
  | CQL_BOOLEAN (b : Bool)
  | double (v : Double)
  deriving DecidableEq

/-- The result of `std::any::type()` on a non-empty `std::any`. -/
def AnyValue.type : AnyValue → TypeId
  | CQL_INT _ => TypeId.int
  | CQL_BIG_INT _ => TypeId.long
  | CQL_DECIMNAL _ => TypeId.float
  | CQL_TEXT _ => TypeId.string
  | CQL_BOOLEAN _ => TypeId.bool
  | double _ => TypeId.double

/-- What a call can meet instead of returning. -/
inductive Fault where
  /-- The exception `std::bad_any_cast` is thrown. -/
  | bad_any_cast
  /-- A null pointer, a pointer to an object whose lifetime has ended or a
  past-the-end iterator is dereferenced. -/
  | invalid_dereference
  deriving DecidableEq

/-- The call `std::any_cast<double>(operand)`: the held value if the held type is
exactly `double`, otherwise `std::bad_any_cast`. -/
def any_cast_double (operand : Option AnyValue) : Except Fault Double :=
  match operand with
  | some (AnyValue.double v) => Except.ok v
  | _ => Except.error Fault.bad_any_cast

/-! ## Pointers -/

/-- A pointer `T*`.  A pointer to an object within its lifetime is identified with the
object; a pointer to an automatic object that has been destroyed records the
value the object had at the end of its lifetime. -/
inductive Ptr (α : Type) where
  | null
  | live (obj : α)
  | dangling (last : α)
  deriving DecidableEq

/-- Unary `*` / `->`. -/
def Ptr.deref {α : Type} : Ptr α → Except Fault α
  | Ptr.live obj => Except.ok obj
  | Ptr.null => Except.error Fault.invalid_dereference
  | Ptr.dangling _ => Except.error Fault.invalid_dereference

/-! ## Data structures (`data_structures.h`) -/

/-- The struct `CQLRow`.  `parentColumn` is never read by the embedded functions
and is kept as an address. -/
structure CQLRow where
  rowData : Option AnyValue
  parentColumn : Nat
  rowID : Int
  inUse : Bool
  rowIndex : Int
  deriving DecidableEq

/-- The struct `CQLColumn`; `rows` is a `std::map<int, CQLRow*>`. -/
structure CQLColumn where
  rows : List (Int × Ptr CQLRow)
  columnName : String
  columnId : Int
  inUse : Bool
  deriving DecidableEq

/-- The struct `CQLTable`; `columns` is a
`std::unordered_map<std::string, CQLColumn*>`. -/
structure CQLTable where
  tableName : String
  columns : List (String × Ptr CQLColumn)
  rows : List (Ptr CQLRow)
  deriving DecidableEq

/-- The struct `CQLMetaData`; `logs` is a `std::map<time_t, std::string>`. -/
structure CQLMetaData where
  timeCreated : Int
  fileName : String
  filePath : String
  logs : List (Int × String)
  deriving DecidableEq

/-- The struct `CQLDocument`; `columnHashmaps` is a `std::map<int, CQLColumn>`. -/
structure CQLDocument where
  documentMetadata : CQLMetaData
  savedTable : CQLTable
  inUse : Bool
  CQLTableID : Int
  tableSnapshots : List CQLTable
  documentSnapshots : List CQLDocument
  columnHashmaps : List (Int × CQLColumn)
  cqlFilePath : String

/-- The class `CQLAPI`: the current document (`columnMap` is never used). -/
structure CQLAPI where
  CQLFile : CQLDocument

/-- The constant `_BAD_COLUMN`. -/
def _BAD_COLUMN : String := "INVALID_COLUMN"

/-! ## Row classification and aggregate functions -/

/-- The function `CQLAPI::RowDataIsNumeric`. -/
def CQLAPI.RowDataIsNumeric (row : CQLRow) : Bool :=
  match row.rowData with
  | none => false
  | some v =>
    if v.type = TypeId.long ∨ v.type = TypeId.int ∨ v.type = TypeId.float then true
    else false

/-- The function `CQLAPI::Count`. -/
def CQLAPI.Count (column : CQLColumn) : Nat :=
  column.rows.length

/-- The `for` loop of `CQLAPI::Sum`, entered with the current `sum`. -/
def CQLAPI.SumLoop : List (Int × Ptr CQLRow) → Double → Except Fault Double
  | [], sum => Except.ok sum
  | index_row :: rest, sum =>
    match index_row.2.deref with
    | Except.error e => Except.error e
    | Except.ok row =>
      if CQLAPI.RowDataIsNumeric row then
        match any_cast_double row.rowData with
        | Except.error e => Except.error e
        | Except.ok d => CQLAPI.SumLoop rest (sum.add d)
      else CQLAPI.SumLoop rest sum

/-- The function `CQLAPI::Sum`. -/
def CQLAPI.Sum (column : CQLColumn) : Except Fault Double :=
  CQLAPI.SumLoop column.rows (Double.fin 0)

/-- The `for` loop of `CQLAPI::Avg`, entered with the current `len`. -/
def CQLAPI.AvgLoop : List (Int × Ptr CQLRow) → Int → Except Fault Int
  | [], len => Except.ok len
  | index_row :: rest, len =>
    match index_row.2.deref with
    | Except.error e => Except.error e
    | Except.ok row =>
      if CQLAPI.RowDataIsNumeric row then CQLAPI.AvgLoop rest (len + 1)
      else CQLAPI.AvgLoop rest len

/-- The function `CQLAPI::Avg`. -/
def CQLAPI.Avg (column : CQLColumn) : Except Fault Double :=
  match CQLAPI.Sum column with
  | Except.error e => Except.error e
  | Except.ok sum =>
    match CQLAPI.AvgLoop column.rows 0 with
    | Except.error e => Except.error e
    | Except.ok len => Except.ok (sum.div (Double.ofLong len))

/-- The `for` loop of `CQLAPI::Max`, entered with the current `max`. -/
def CQLAPI.MaxLoop : List (Int × Ptr CQLRow) → Double → Except Fault Double
  | [], max => Except.ok max
  | index_row :: rest, max =>
    match index_row.2.deref with
    | Except.error e => Except.error e
    | Except.ok row =>
      if !CQLAPI.RowDataIsNumeric row then CQLAPI.MaxLoop rest max
      else
        match any_cast_double row.rowData with
        | Except.error e => Except.error e
        | Except.ok d =>
          if max.lt d then
            match any_cast_double row.rowData with
            | Except.error e => Except.error e
            | Except.ok d2 => CQLAPI.MaxLoop rest d2
          else CQLAPI.MaxLoop rest max

/-- The function `CQLAPI::Max`. -/
def CQLAPI.Max (column : CQLColumn) : Except Fault Double :=
  CQLAPI.MaxLoop column.rows (Double.fin 0)

/-- The `for` loop of `CQLAPI::Min`, entered with the current `min`. -/
def CQLAPI.MinLoop : List (Int × Ptr CQLRow) → Double → Except Fault Double
  | [], min => Except.ok min
  | index_row :: rest, min =>
    match index_row.2.deref with
    | Except.error e => Except.error e
    | Except.ok row =>
      if !CQLAPI.RowDataIsNumeric row then CQLAPI.MinLoop rest min
      else
        match any_cast_double row.rowData with
        | Except.error e => Except.error e
        | Except.ok d =>
          if d.lt min then
            match any_cast_double row.rowData with
            | Except.error e => Except.error e
            | Except.ok d2 => CQLAPI.MinLoop rest d2
          else CQLAPI.MinLoop rest min

/-- The function `CQLAPI::Min`. -/
def CQLAPI.Min (column : CQLColumn) : Except Fault Double :=
  CQLAPI.MinLoop column.rows (Double.fin 0)

/-! ## Maps -/

/-- Lookup in a `std::map<int, V>`: `find(key)` / `at(key)`; `none` stands for
`end()` and for the `std::out_of_range` of `at`. -/
def mapFind {V : Type} : List (Int × V) → Int → Option V
  | [], _ => none
  | (k, v) :: rest, key => if k = key then some v else mapFind rest key

/-- The call `std::map::insert(std::make_pair(key, value))`: the pair is put
at its place in key order; a map that already has `key` is left as it is. -/
def mapInsert {V : Type} : List (Int × V) → Int → V → List (Int × V)
  | [], key, value => [(key, value)]
  | (k, v) :: rest, key, value =>
    if key < k then (key, value) :: (k, v) :: rest
    else if key = k then (k, v) :: rest
    else (k, v) :: mapInsert rest key value

/-- The call `std::map::erase(key)`. -/
def mapErase {V : Type} : List (Int × V) → Int → List (Int × V)
  | [], _ => []
  | (k, v) :: rest, key =>
    if k = key then mapErase rest key else (k, v) :: mapErase rest key

/-- The statement `m[key] = value` on a `std::unordered_map<std::string, V>`:
the entry of `key` is overwritten, or a new entry is made. -/
def umapAssign {V : Type} : List (String × V) → String → V → List (String × V)
  | [], key, value => [(key, value)]
  | (k, v) :: rest, key, value =>
    if k = key then (k, value) :: rest else (k, v) :: umapAssign rest key value

/-- The call `std::unordered_map::erase(key)`. -/
def umapErase {V : Type} : List (String × V) → String → List (String × V)
  | [], _ => []
  | (k, v) :: rest, key =>
    if k = key then umapErase rest key else (k, v) :: umapErase rest key

/-! ## Columns -/

/-- One `dist(generator)` of a `std::uniform_int_distribution<size_t> dist(a, b)`:
a value of the closed range `[a, b]` fixed by what the generator delivers. -/
def uniform_int_distribution (a b : Nat) (entropy : Nat) : Nat :=
  a + entropy % (b - a + 1)

/-- The value `column.columnId` has when the collision loop of
`CQLAPI::InsertColumn` (lines 95-99) exits: the first `dist(generator)` that is
not a key of `columnHashmaps`.  `none`: every draw of `generator` was a key,
the loop is still running when the draws end. -/
def CQLAPI.drawColumnId (columnHashmaps : List (Int × CQLColumn)) : List Nat → Option Int
  | [] => none
  | entropy :: generator =>
    let columnId : Int :=
      (uniform_int_distribution 1 (10000 + columnHashmaps.length) entropy : Nat)
    if (mapFind columnHashmaps columnId).isSome then
      CQLAPI.drawColumnId columnHashmaps generator
    else some columnId

/-- The function `CQLAPI::InsertColumn`.  The name index receives `&column`,
the address of the by-value parameter, which is destroyed on return. -/
def CQLAPI.InsertColumn (self : CQLAPI) (column : CQLColumn) (generator : List Nat) :
    Option CQLAPI :=
  match CQLAPI.drawColumnId self.CQLFile.columnHashmaps generator with
  | none => none
  | some columnId =>
    let column : CQLColumn := { column with inUse := true, columnId := columnId }
    some { CQLFile := { self.CQLFile with
      savedTable := { self.CQLFile.savedTable with
        columns := umapAssign self.CQLFile.savedTable.columns column.columnName
          (Ptr.dangling column) }
      columnHashmaps := mapInsert self.CQLFile.columnHashmaps column.columnId column } }

/-- The function `CQLAPI::GetColumn(int columnId)`. -/
def CQLAPI.GetColumn_int (self : CQLAPI) (columnId : Int) : CQLColumn :=
  match mapFind self.CQLFile.columnHashmaps columnId with
  | some col => col
  | none => { rows := [], columnName := _BAD_COLUMN, columnId := 0, inUse := false }

/-- The function `CQLAPI::RemoveColumn(int columnID)`. -/
def CQLAPI.RemoveColumn_int (self : CQLAPI) (columnID : Int) : CQLAPI :=
  let col := self.GetColumn_int columnID
  if col.columnName = _BAD_COLUMN then self
  else
    { CQLFile := { self.CQLFile with
        columnHashmaps := mapErase self.CQLFile.columnHashmaps col.columnId
        savedTable := { self.CQLFile.savedTable with
          columns := umapErase self.CQLFile.savedTable.columns col.columnName } } }

/-- A default-constructed `CQLAPI`: no document in use, empty table and
indexes, `cqlFilePath = "None"`; the two `int` members without an initializer
are read as 0. -/
def CQLAPI.fresh : CQLAPI :=
  { CQLFile :=
    { documentMetadata := { timeCreated := 0, fileName := "", filePath := "", logs := [] }
      savedTable := { tableName := "", columns := [], rows := [] }
      inUse := false
      CQLTableID := 0
      tableSnapshots := []
      documentSnapshots := []
      columnHashmaps := []
      cqlFilePath := "None" } }

/-- A call of the column interface. -/
inductive Call where
  | InsertColumn (column : CQLColumn) (generator : List Nat)
  | RemoveColumn (columnID : Int)

/-- A sequence of calls on one `CQLAPI` object; `none` when an `InsertColumn`
of the sequence does not leave its loop. -/
def CQLAPI.run : CQLAPI → List Call → Option CQLAPI
  | self, [] => some self
  | self, Call.InsertColumn column generator :: calls =>
    match self.InsertColumn column generator with
    | none => none
    | some next => CQLAPI.run next calls
  | self, Call.RemoveColumn columnID :: calls =>
    CQLAPI.run (self.RemoveColumn_int columnID) calls

/-- The column ids assigned, in order, by the `InsertColumn` calls of a
sequence of calls. -/
def CQLAPI.assignedIds : CQLAPI → List Call → Option (List Int)
  | _, [] => some []
  | self, Call.InsertColumn column generator :: calls =>
    match CQLAPI.drawColumnId self.CQLFile.columnHashmaps generator,
        self.InsertColumn column generator with
    | some columnId, some next =>
      match CQLAPI.assignedIds next calls with
      | some ids => some (columnId :: ids)
      | none => none
    | _, _ => none
  | self, Call.RemoveColumn columnID :: calls =>
    CQLAPI.assignedIds (self.RemoveColumn_int columnID) calls

/-! ## Columns used as concrete inputs -/

/-- A map entry `index -> &row` for a row within its lifetime that holds the
`CQL_INT` `value`. -/
def intRow (index value : Int) : Int × Ptr CQLRow :=
  (index, Ptr.live { rowData := some (AnyValue.CQL_INT value), parentColumn := 0,
                     rowID := index, inUse := true, rowIndex := index })

/-- A map entry `index -> &row` for a row within its lifetime with the given
`rowData`. -/
def anyRow (index : Int) (rowData : Option AnyValue) : Int × Ptr CQLRow :=
  (index, Ptr.live { rowData := rowData, parentColumn := 0,
                     rowID := index, inUse := true, rowIndex := index })

/-- The column `"age"` with the `CQL_INT` rows 30, -5, 12. -/
def ageColumn : CQLColumn :=
  { rows := [intRow 0 30, intRow 1 (-5), intRow 2 12],
    columnName := "age", columnId := 1, inUse := true }

/-- The column `"age"` with the `CQL_INT` rows -30, -5, -12. -/
def negativeColumn : CQLColumn :=
  { rows := [intRow 0 (-30), intRow 1 (-5), intRow 2 (-12)],
    columnName := "age", columnId := 1, inUse := true }

/-- A column with the `CQL_INT` rows 7, 3, 9, all above zero. -/
def positiveColumn : CQLColumn :=
  { rows := [intRow 0 7, intRow 1 3, intRow 2 9],
    columnName := "count", columnId := 2, inUse := true }

/-- A column without rows. -/
def emptyColumn : CQLColumn :=
  { rows := [], columnName := "empty", columnId := 3, inUse := true }

/-- A column with a `CQL_TEXT` row, a `CQL_BOOLEAN` row and a row whose
`std::any` is empty. -/
def textColumn : CQLColumn :=
  { rows := [anyRow 0 (some (AnyValue.CQL_TEXT "x")), anyRow 1 (some (AnyValue.CQL_BOOLEAN true)),
             anyRow 2 none],
    columnName := "note", columnId := 4, inUse := true }

/-! ## Properties of a column's row map -/

/-- The entry's pointer points to a row within its lifetime. -/
def entryLive (index_row : Int × Ptr CQLRow) : Bool :=
  match index_row.2 with
  | Ptr.live _ => true
  | _ => false

/-- The entry's pointer points to a row within its lifetime for which
`RowDataIsNumeric` holds. -/
def entryNumeric (index_row : Int × Ptr CQLRow) : Bool :=
  match index_row.2 with
  | Ptr.live row => CQLAPI.RowDataIsNumeric row
  | _ => false

/-- Every row pointer of the column can be dereferenced. -/
def CQLColumn.rowsLive (column : CQLColumn) : Bool :=
  column.rows.all entryLive

/-- The column holds at least one numeric row. -/
def CQLColumn.hasNumericRow (column : CQLColumn) : Bool :=
  column.rows.any entryNumeric

/-! ## Call sequences used as concrete inputs, and properties of the ID index -/

/-- A caller's column with the given name, no rows, `columnId = 0` and
`inUse = false`. -/
def columnNamed (name : String) : CQLColumn :=
  { rows := [], columnName := name, columnId := 0, inUse := false }

/-- The call is an `InsertColumn`. -/
def Call.isInsertColumn : Call → Bool
  | Call.InsertColumn _ _ => true
  | Call.RemoveColumn _ => false

/-- Every column of the ID index is stored under its own `columnId`, as
`InsertColumn` stores it. -/
def CQLAPI.idsMatch (self : CQLAPI) : Prop :=
  ∀ entry ∈ self.CQLFile.columnHashmaps, entry.2.columnId = entry.1

/-- The generator delivers a draw that is not a key of the ID index, so that
the collision loop of `InsertColumn` exits. -/
def CQLAPI.hasFreeDraw (self : CQLAPI) (generator : List Nat) : Prop :=
  ∃ entropy ∈ generator,
    mapFind self.CQLFile.columnHashmaps
      ((uniform_int_distribution 1 (10000 + self.CQLFile.columnHashmaps.length) entropy : Nat) :
        Int) = none

/-- The state a default-constructed `CQLAPI` is in after `InsertColumn` of
`columnNamed "a"` was assigned the id 42. -/
def CQLAPI.freshWithA : CQLAPI :=
  { CQLFile := { CQLAPI.fresh.CQLFile with
      savedTable := { CQLAPI.fresh.CQLFile.savedTable with
        columns := [("a", Ptr.dangling { columnNamed "a" with inUse := true, columnId := 42 })] }
      columnHashmaps := [(42, { columnNamed "a" with inUse := true, columnId := 42 })] } }


/-! ## Lookup by name and rows -/

/-- Lookup in a `std::unordered_map<std::string, V>`; `none` when the map has
no entry for `key`. -/
def umapFind {V : Type} : List (String × V) → String → Option V
  | [], _ => none
  | (k, v) :: rest, key => if k = key then some v else umapFind rest key

/-- The expression `m[key]` on a `std::unordered_map<std::string, T*>`: the
map after the access and the pointer stored under `key`.  A map without `key`
receives a new entry with a value-initialised (null) pointer; no exception is
thrown. -/
def umapIndex {α : Type} (m : List (String × Ptr α)) (key : String) :
    List (String × Ptr α) × Ptr α :=
  match umapFind m key with
  | some p => (m, p)
  | none => (m ++ [(key, Ptr.null)], Ptr.null)

/-- The function `CQLAPI::GetColumn(std::string columnName)`: the state after
the call and the returned pointer.  Line 141 makes `col` a null pointer and
line 142 writes `col->columnName`. -/
def CQLAPI.GetColumn_string (self : CQLAPI) (columnName : String) :
    Except Fault (CQLAPI × Ptr CQLColumn) :=
  let col : Ptr CQLColumn := Ptr.null
  match col.deref with
  | Except.error e => Except.error e
  | Except.ok _ =>
    let found := umapIndex self.CQLFile.savedTable.columns columnName
    Except.ok
      ({ CQLFile := { self.CQLFile with
          savedTable := { self.CQLFile.savedTable with columns := found.1 } } },
       found.2)

/-- The function `CQLAPI::RemoveColumn(std::string columnName)`. -/
def CQLAPI.RemoveColumn_string (self : CQLAPI) (columnName : String) : Except Fault CQLAPI :=
  match self.GetColumn_string columnName with
  | Except.error e => Except.error e
  | Except.ok (self, col) =>
    match col.deref with
    | Except.error e => Except.error e
    | Except.ok column =>
      if column.columnName = _BAD_COLUMN then Except.ok self
      else
        Except.ok { CQLFile := { self.CQLFile with
          columnHashmaps := mapErase self.CQLFile.columnHashmaps column.columnId
          savedTable := { self.CQLFile.savedTable with
            columns := umapErase self.CQLFile.savedTable.columns column.columnName } } }

/-- The expression `m.end()->first` on a `std::map`: `end()` is the
past-the-end iterator and refers to no entry, so reading through it is an
invalid dereference whatever the map holds. -/
def mapEndFirst {V : Type} (_m : List (Int × V)) : Except Fault Int :=
  Except.error Fault.invalid_dereference

/-- The statement `m[key] = value` on a `std::map<int, V>`: the entry of `key`
is overwritten, or a new entry is made at its place in key order. -/
def mapAssign {V : Type} : List (Int × V) → Int → V → List (Int × V)
  | [], key, value => [(key, value)]
  | (k, v) :: rest, key, value =>
    if key < k then (key, value) :: (k, v) :: rest
    else if key = k then (k, value) :: rest
    else (k, v) :: mapAssign rest key value

/-- One `dist(generator)` of a `std::uniform_int_distribution<int> dist(a, b)`. -/
def uniform_int_distribution_int (a b : Int) (entropy : Nat) : Int :=
  a + (entropy : Int) % (b - a + 1)

/-- The address a pointer holds, as far as the embedding tells addresses
apart: 0 for the null pointer, 1 for every other pointer. -/
def Ptr.address {α : Type} : Ptr α → Nat
  | Ptr.null => 0
  | Ptr.live _ => 1
  | Ptr.dangling _ => 1

/-- Lines 194-204 of `CQLAPI::AddRow`, entered with the column `col` points
to and with `lastExistingRowIndex`: the row is given its parent, `inUse`,
index and a single drawn `rowID`, and `col->rows` receives `&row`, the address
of the by-value parameter, which is destroyed on return.  The column written
to is the object the name index refers to under `columnName`. -/
def CQLAPI.AddRow_store (self : CQLAPI) (columnName : String) (col : Ptr CQLColumn)
    (column : CQLColumn) (lastExistingRowIndex : Int) (row : CQLRow) (entropy : Nat) : CQLAPI :=
  let row : CQLRow :=
    { row with parentColumn := col.address, inUse := true, rowIndex := lastExistingRowIndex + 1 }
  let row : CQLRow :=
    { row with rowID := uniform_int_distribution_int 0 (10000 + row.rowIndex) entropy }
  let column : CQLColumn :=
    { column with rows := mapAssign column.rows row.rowIndex (Ptr.dangling row) }
  { CQLFile := { self.CQLFile with
      savedTable := { self.CQLFile.savedTable with
        columns := umapAssign self.CQLFile.savedTable.columns columnName (Ptr.live column) } } }

/-- Lines 188-204 of `CQLAPI::AddRow`, entered with the pointer `col` that
`GetColumn` returned. -/
def CQLAPI.AddRow_from (self : CQLAPI) (columnName : String) (col : Ptr CQLColumn)
    (row : CQLRow) (entropy : Nat) : Except Fault CQLAPI :=
  match col.deref with
  | Except.error e => Except.error e
  | Except.ok column =>
    if column.columnName = _BAD_COLUMN then Except.ok self
    else
      match mapEndFirst column.rows with
      | Except.error e => Except.error e
      | Except.ok lastExistingRowIndex =>
        Except.ok (self.AddRow_store columnName col column lastExistingRowIndex row entropy)

/-- The function `CQLAPI::AddRow`; `entropy` is what the generator delivers
to the one `dist(generator)`. -/
def CQLAPI.AddRow (self : CQLAPI) (columnName : String) (row : CQLRow) (entropy : Nat) :
    Except Fault CQLAPI :=
  match self.GetColumn_string columnName with
  | Except.error e => Except.error e
  | Except.ok (self, col) => self.AddRow_from columnName col row entropy

/-! ## Documents and snapshots -/

/-- The function `CQLDocument::Log`; `now` is the value of `time(NULL)`. -/
def CQLDocument.Log (self : CQLDocument) (text : String) (now : Int) : CQLDocument :=
  { self with
    documentMetadata := { self.documentMetadata with
      logs := mapInsert self.documentMetadata.logs now text } }

/-- The function `CQLMetaData::SetFilePath`. -/
def CQLMetaData.SetFilePath (self : CQLMetaData) (newFilePath : String) : CQLMetaData :=
  if self.filePath ≠ "" then self else { self with filePath := newFilePath }

/-- The function `CQLMetaData::SetFileName`. -/
def CQLMetaData.SetFileName (self : CQLMetaData) (newFileName : String) : CQLMetaData :=
  if self.fileName ≠ "" ∧ self.filePath ≠ "" then self else { self with fileName := newFileName }

/-- The function `CQLDocument::MakeCQLFile`; `fileOpens` tells whether the
`std::fstream` on the full path is open. -/
def CQLDocument.MakeCQLFile (self : CQLDocument) (CQLFileName CQLFilePath : String)
    (fileOpens : Bool) : CQLDocument :=
  let named : CQLDocument :=
    { self with
      documentMetadata :=
        (self.documentMetadata.SetFileName CQLFileName).SetFilePath CQLFilePath }
  if fileOpens then { named with cqlFilePath := CQLFilePath ++ CQLFileName ++ ".cql" }
  else named

/-- The function `CQLAPI::MakeNewDocument`; `logTime` and `timeCreated` are
the values of the two `time(NULL)`, `tableID` the value of `std::rand()`. -/
def CQLAPI.MakeNewDocument (self : CQLAPI) (CQLFileName CQLFilePath : String)
    (logTime tableID timeCreated : Int) (fileOpens : Bool) : CQLAPI :=
  let newDocument : CQLDocument := CQLAPI.fresh.CQLFile
  let newDocument : CQLDocument :=
    if self.CQLFile.inUse then
      { newDocument with
        documentSnapshots := newDocument.documentSnapshots ++
          [({ self.CQLFile with inUse := false }).Log "Document No Longer Being Used" logTime] }
    else newDocument
  let newDocument : CQLDocument :=
    { newDocument with
      inUse := true
      CQLTableID := tableID
      documentMetadata := { newDocument.documentMetadata with timeCreated := timeCreated } }
  { CQLFile := newDocument.MakeCQLFile CQLFileName CQLFilePath fileOpens }

/-- The function `CQLAPI::TakeTableSnapshot`. -/
def CQLAPI.TakeTableSnapshot (self : CQLAPI) : CQLAPI :=
  { CQLFile := { self.CQLFile with
      tableSnapshots := self.CQLFile.tableSnapshots ++ [self.CQLFile.savedTable] } }

/-- The function `CQLAPI::TakeDocumentSnapshot`. -/
def CQLAPI.TakeDocumentSnapshot (self : CQLAPI) : CQLAPI :=
  { CQLFile := { self.CQLFile with
      documentSnapshots := self.CQLFile.documentSnapshots ++ [self.CQLFile] } }

/-! ## Further concrete inputs -/

/-- A caller's row holding the `CQL_TEXT` `"x"`. -/
def textRow : CQLRow :=
  { rowData := some (AnyValue.CQL_TEXT "x"), parentColumn := 0, rowID := 0, inUse := false,
    rowIndex := 0 }

/-- The state of `CQLAPI.freshWithA` after `TakeTableSnapshot`. -/
def CQLAPI.freshWithASnapshot : CQLAPI :=
  CQLAPI.freshWithA.TakeTableSnapshot

/-- A column within its lifetime that holds one row with `rowID = 5` under
index 0. -/
def columnWithRow5 : CQLColumn :=
  { rows := [(0, Ptr.live { rowData := some (AnyValue.CQL_INT 1), parentColumn := 1, rowID := 5,
                            inUse := true, rowIndex := 0 })],
    columnName := "a", columnId := 42, inUse := true }

/-- The ids of the rows a column's row map refers to; the dangling `&row`
that `AddRow` stores is read as the row it pointed to. -/
def CQLColumn.rowIDs (column : CQLColumn) : List Int :=
  column.rows.filterMap (fun index_row =>
    match index_row.2 with
    | Ptr.null => none
    | Ptr.live row => some row.rowID
    | Ptr.dangling row => some row.rowID)

/-- The state a default-constructed `CQLAPI` is in after `InsertColumn` of a
column named `"INVALID_COLUMN"` was assigned the id 42. -/
def CQLAPI.freshWithBadName : CQLAPI :=
  { CQLFile := { CQLAPI.fresh.CQLFile with
      savedTable := { CQLAPI.fresh.CQLFile.savedTable with
        columns := [("INVALID_COLUMN",
          Ptr.dangling { columnNamed "INVALID_COLUMN" with inUse := true, columnId := 42 })] }
      columnHashmaps :=
        [(42, { columnNamed "INVALID_COLUMN" with inUse := true, columnId := 42 })] } }

/-! ## Row values as text -/

/-- The call `std::to_string(n)` on an `int` or a `long`: the decimal numeral
of `n`, with a leading minus sign for a negative value. -/
def to_string_int (n : Int) : String :=
  toString n

/-- The function `CQLAPI::RowDataToString`.  The chain of `typeid` tests has a
branch for `CQL_TEXT`, `CQL_INT`, `CQL_DECIMNAL` and `CQL_BIG_INT`; every other
content, and an empty `std::any`, leaves the initial `""`.  The library call
`std::to_string(float)` is the parameter `to_string_float`. -/
def CQLAPI.RowDataToString (to_string_float : Double → String) (row : CQLRow) : String :=
  match row.rowData with
  | some (AnyValue.CQL_TEXT s) => s
  | some (AnyValue.CQL_INT n) => to_string_int n
  | some (AnyValue.CQL_DECIMNAL d) => to_string_float d
  | some (AnyValue.CQL_BIG_INT n) => to_string_int n
  | _ => ""

/-! ## File locking (`FILE_LOCKING`) -/

/-- The platform the source is compiled for: `_WIN32` defined, `__unix__`
defined, or neither. -/
inductive Platform where
  | win32
  | unix
  | other
  deriving DecidableEq

/-- How a call of a function with return type `bool` ends: with a returned
value, or by reaching the closing brace without a `return` statement. -/
inductive BoolCall where
  | returns (value : Bool)
  | no_return_statement
  deriving DecidableEq

/-- The function `FILE_LOCKING::LockFile(HANDLE file)`, compiled under
`_WIN32` only: the result of `LockFileEx` with the flags
`LOCKFILE_EXCLUSIVE_LOCK | LOCKFILE_FAIL_IMMEDIATELY` is returned, after
`CloseHandle(file)`.  The system call is the parameter `LockFileEx`. -/
def FILE_LOCKING.LockFile_HANDLE (LockFileEx : Nat → Bool) (file : Nat) : Bool :=
  LockFileEx file

/-- The function `FILE_LOCKING::UnlockFile(HANDLE file)`, compiled under
`_WIN32` only. -/
def FILE_LOCKING.UnlockFile_HANDLE (UnlockFileEx : Nat → Bool) (file : Nat) : Bool :=
  UnlockFileEx file

/-- The function `FILE_LOCKING::LockFile(std::string path)`.  Its body is the
`_WIN32` branch; under `__unix__`, and when neither macro is defined, the body
is empty.  `GetFileHandle` gives the handle of `path`, `none` for `nullptr`. -/
def FILE_LOCKING.LockFile (platform : Platform) (GetFileHandle : String → Option Nat)
    (LockFileEx : Nat → Bool) (path : String) : BoolCall :=
  match platform with
  | Platform.win32 =>
    match GetFileHandle path with
    | none => BoolCall.returns false
    | some file => BoolCall.returns (FILE_LOCKING.LockFile_HANDLE LockFileEx file)
  | Platform.unix => BoolCall.no_return_statement
  | Platform.other => BoolCall.no_return_statement

/-- The function `FILE_LOCKING::UnlockFile(std::string path)`. -/
def FILE_LOCKING.UnlockFile (platform : Platform) (GetFileHandle : String → Option Nat)
    (UnlockFileEx : Nat → Bool) (path : String) : BoolCall :=
  match platform with
  | Platform.win32 =>
    match GetFileHandle path with
    | none => BoolCall.returns false
    | some file => BoolCall.returns (FILE_LOCKING.UnlockFile_HANDLE UnlockFileEx file)
  | Platform.unix => BoolCall.no_return_statement
  | Platform.other => BoolCall.no_return_statement

/-- The function `FILE_LOCKING::IsFileLocked`: both branches are empty and
`true` is returned. -/
def FILE_LOCKING.IsFileLocked (_platform : Platform) (_path : String) : BoolCall :=
  BoolCall.returns true

/-! ## The draw range and the two indexes -/

/-- The ids of the closed range `[1, 10000 + n]`, the range of
`dist(1, 10000 + columnHashmaps.size())`. -/
def drawRange (n : Nat) : List Int :=
  List.map (fun (i : Nat) => (i : Int) + 1) (List.range (10000 + n))

/-- The ids of the draw range of `InsertColumn` that are not keys of the ID
index. -/
def CQLAPI.freeIds (self : CQLAPI) : List Int :=
  (drawRange self.CQLFile.columnHashmaps.length).filter
    (fun columnId => (mapFind self.CQLFile.columnHashmaps columnId).isNone)

/-- A document in use whose logs hold one entry, written at the time 100. -/
def loggedDocument : CQLDocument :=
  { CQLAPI.fresh.CQLFile with
    inUse := true
    documentMetadata :=
      { timeCreated := 100, fileName := "A", filePath := "/tmp", logs := [(100, "created")] } }

/-- The name index and the ID index agree: they have the same number of
entries, every column of the ID index is stored under its own id and has its
name as a key of the name index, and every key of the name index is the name
of a column of the ID index. -/
def CQLAPI.indexesConsistent (self : CQLAPI) : Prop :=
  self.CQLFile.columnHashmaps.length = self.CQLFile.savedTable.columns.length ∧
  (∀ columnId column, mapFind self.CQLFile.columnHashmaps columnId = some column →
    column.columnId = columnId ∧
    (umapFind self.CQLFile.savedTable.columns column.columnName).isSome = true) ∧
  (∀ name, (umapFind self.CQLFile.savedTable.columns name).isSome = true →
    ∃ columnId column, mapFind self.CQLFile.columnHashmaps columnId = some column ∧
      column.columnName = name)

/-- The two indexes agree, no key occurs twice in either of them, and no two
columns of the ID index have the same name. -/
def CQLAPI.indexInvariant (self : CQLAPI) : Prop :=
  self.indexesConsistent ∧
  (self.CQLFile.columnHashmaps.map Prod.fst).Nodup ∧
  (self.CQLFile.savedTable.columns.map Prod.fst).Nodup ∧
  (∀ id1 id2 column1 column2,
    mapFind self.CQLFile.columnHashmaps id1 = some column1 →
    mapFind self.CQLFile.columnHashmaps id2 = some column2 →
    column1.columnName = column2.columnName → id1 = id2)

/-- The state a default-constructed `CQLAPI` is in after `"a"` was inserted
under the id 42, `"b"` under the id 100, and `"a"` was removed. -/
def CQLAPI.freshWithB : CQLAPI :=
  { CQLFile := { CQLAPI.fresh.CQLFile with
      savedTable := { CQLAPI.fresh.CQLFile.savedTable with
        columns := [("b", Ptr.dangling { columnNamed "b" with inUse := true, columnId := 100 })] }
      columnHashmaps := [(100, { columnNamed "b" with inUse := true, columnId := 100 })] } }

/-- Every `InsertColumn` of the sequence inserts a column whose name is not a
key of the name index at the time of the call. -/
def CQLAPI.insertsAbsentNames : CQLAPI → List Call → Bool
  | _, [] => true
  | self, Call.InsertColumn column generator :: calls =>
    (umapFind self.CQLFile.savedTable.columns column.columnName).isNone &&
      (match self.InsertColumn column generator with
        | none => true
        | some next => CQLAPI.insertsAbsentNames next calls)
  | self, Call.RemoveColumn columnID :: calls =>
    CQLAPI.insertsAbsentNames (self.RemoveColumn_int columnID) calls

/-! ## Aggregate functions: lemmas -/

theorem any_cast_double_of_numeric (row : CQLRow)
    (h : CQLAPI.RowDataIsNumeric row = true) :
    any_cast_double row.rowData = Except.error Fault.bad_any_cast := by
  unfold CQLAPI.RowDataIsNumeric at h
  cases hd : row.rowData with
  | none => rw [hd] at h; simp at h
  | some v =>
    cases v <;> simp_all [any_cast_double, AnyValue.type]

theorem SumLoop_of_numeric (rows : List (Int × Ptr CQLRow)) (sum : Double)
    (hl : rows.all entryLive = true) (hn : rows.any entryNumeric = true) :
    CQLAPI.SumLoop rows sum = Except.error Fault.bad_any_cast := by
  induction rows generalizing sum with
  | nil => simp at hn
  | cons e rest ih =>
    obtain ⟨i, p⟩ := e
    cases p with
    | null => simp [entryLive] at hl
    | dangling r => simp [entryLive] at hl
    | live row =>
      simp only [List.all_cons, List.any_cons, Bool.and_eq_true, Bool.or_eq_true] at hl hn
      by_cases hr : CQLAPI.RowDataIsNumeric row = true
      · simp [CQLAPI.SumLoop, Ptr.deref, hr, any_cast_double_of_numeric row hr]
      · have hrest : rest.any entryNumeric = true := by
          rcases hn with h | h
          · simp [entryNumeric] at h; exact absurd h hr
          · exact h
        simp [CQLAPI.SumLoop, Ptr.deref, hr, ih sum hl.2 hrest]

theorem MaxLoop_of_numeric (rows : List (Int × Ptr CQLRow)) (max : Double)
    (hl : rows.all entryLive = true) (hn : rows.any entryNumeric = true) :
    CQLAPI.MaxLoop rows max = Except.error Fault.bad_any_cast := by
  induction rows generalizing max with
  | nil => simp at hn
  | cons e rest ih =>
    obtain ⟨i, p⟩ := e
    cases p with
    | null => simp [entryLive] at hl
    | dangling r => simp [entryLive] at hl
    | live row =>
      simp only [List.all_cons, List.any_cons, Bool.and_eq_true, Bool.or_eq_true] at hl hn
      by_cases hr : CQLAPI.RowDataIsNumeric row = true
      · simp [CQLAPI.MaxLoop, Ptr.deref, hr, any_cast_double_of_numeric row hr]
      · have hrest : rest.any entryNumeric = true := by
          rcases hn with h | h
          · simp [entryNumeric] at h; exact absurd h hr
          · exact h
        simp [CQLAPI.MaxLoop, Ptr.deref, hr, ih max hl.2 hrest]

theorem MinLoop_of_numeric (rows : List (Int × Ptr CQLRow)) (min : Double)
    (hl : rows.all entryLive = true) (hn : rows.any entryNumeric = true) :
    CQLAPI.MinLoop rows min = Except.error Fault.bad_any_cast := by
  induction rows generalizing min with
  | nil => simp at hn
  | cons e rest ih =>
    obtain ⟨i, p⟩ := e
    cases p with
    | null => simp [entryLive] at hl
    | dangling r => simp [entryLive] at hl
    | live row =>
      simp only [List.all_cons, List.any_cons, Bool.and_eq_true, Bool.or_eq_true] at hl hn
      by_cases hr : CQLAPI.RowDataIsNumeric row = true
      · simp [CQLAPI.MinLoop, Ptr.deref, hr, any_cast_double_of_numeric row hr]
      · have hrest : rest.any entryNumeric = true := by
          rcases hn with h | h
          · simp [entryNumeric] at h; exact absurd h hr
          · exact h
        simp [CQLAPI.MinLoop, Ptr.deref, hr, ih min hl.2 hrest]

theorem SumLoop_of_no_numeric (rows : List (Int × Ptr CQLRow)) (sum : Double)
    (hl : rows.all entryLive = true) (hn : rows.any entryNumeric = false) :
    CQLAPI.SumLoop rows sum = Except.ok sum := by
  induction rows generalizing sum with
  | nil => rfl
  | cons e rest ih =>
    obtain ⟨i, p⟩ := e
    cases p with
    | null => simp [entryLive] at hl
    | dangling r => simp [entryLive] at hl
    | live row =>
      simp only [List.all_cons, List.any_cons, Bool.and_eq_true, Bool.or_eq_false_iff] at hl hn
      have hr : CQLAPI.RowDataIsNumeric row = false := by simpa [entryNumeric] using hn.1
      simp [CQLAPI.SumLoop, Ptr.deref, hr, ih sum hl.2 hn.2]

theorem AvgLoop_of_no_numeric (rows : List (Int × Ptr CQLRow)) (len : Int)
    (hl : rows.all entryLive = true) (hn : rows.any entryNumeric = false) :
    CQLAPI.AvgLoop rows len = Except.ok len := by
  induction rows generalizing len with
  | nil => rfl
  | cons e rest ih =>
    obtain ⟨i, p⟩ := e
    cases p with
    | null => simp [entryLive] at hl
    | dangling r => simp [entryLive] at hl
    | live row =>
      simp only [List.all_cons, List.any_cons, Bool.and_eq_true, Bool.or_eq_false_iff] at hl hn
      have hr : CQLAPI.RowDataIsNumeric row = false := by simpa [entryNumeric] using hn.1
      simp [CQLAPI.AvgLoop, Ptr.deref, hr, ih len hl.2 hn.2]

theorem MaxLoop_of_no_numeric (rows : List (Int × Ptr CQLRow)) (max : Double)
    (hl : rows.all entryLive = true) (hn : rows.any entryNumeric = false) :
    CQLAPI.MaxLoop rows max = Except.ok max := by
  induction rows generalizing max with
  | nil => rfl
  | cons e rest ih =>
    obtain ⟨i, p⟩ := e
    cases p with
    | null => simp [entryLive] at hl
    | dangling r => simp [entryLive] at hl
    | live row =>
      simp only [List.all_cons, List.any_cons, Bool.and_eq_true, Bool.or_eq_false_iff] at hl hn
      have hr : CQLAPI.RowDataIsNumeric row = false := by simpa [entryNumeric] using hn.1
      simp [CQLAPI.MaxLoop, Ptr.deref, hr, ih max hl.2 hn.2]

theorem MinLoop_of_no_numeric (rows : List (Int × Ptr CQLRow)) (min : Double)
    (hl : rows.all entryLive = true) (hn : rows.any entryNumeric = false) :
    CQLAPI.MinLoop rows min = Except.ok min := by
  induction rows generalizing min with
  | nil => rfl
  | cons e rest ih =>
    obtain ⟨i, p⟩ := e
    cases p with
    | null => simp [entryLive] at hl
    | dangling r => simp [entryLive] at hl
    | live row =>
      simp only [List.all_cons, List.any_cons, Bool.and_eq_true, Bool.or_eq_false_iff] at hl hn
      have hr : CQLAPI.RowDataIsNumeric row = false := by simpa [entryNumeric] using hn.1
      simp [CQLAPI.MinLoop, Ptr.deref, hr, ih min hl.2 hn.2]


/-! ## Aggregate functions: claims C1 - C7 -/

/-- C1, on the code: for the column with the Integer rows -30, -5, -12 `Max`
does not return -5, the greatest value; it throws `std::bad_any_cast` at the
first numeric row, because the held `int` is cast with `any_cast<double>`. -/
theorem Max_negativeColumn_throws :
    CQLAPI.Max negativeColumn = Except.error Fault.bad_any_cast := by
  rfl

/-- C2, on the code: for the column with the Integer rows 30, -5, 12 `Min`
does not return -5, and for the column with the rows 7, 3, 9, all above zero,
it does not return 3; both calls throw `std::bad_any_cast` at the first
numeric row. -/
theorem Min_ageColumn_throws :
    CQLAPI.Min ageColumn = Except.error Fault.bad_any_cast ∧
    CQLAPI.Min positiveColumn = Except.error Fault.bad_any_cast := by
  exact ⟨rfl, rfl⟩

/-- C3, on the code: for every column whose row pointers are valid and that
holds a numeric row, neither `Min` nor `Max` returns a bound for the row
values: both throw `std::bad_any_cast`. -/
theorem Min_Max_throw_of_numeric (column : CQLColumn)
    (hl : column.rowsLive = true) (hn : column.hasNumericRow = true) :
    CQLAPI.Min column = Except.error Fault.bad_any_cast ∧
    CQLAPI.Max column = Except.error Fault.bad_any_cast :=
  ⟨MinLoop_of_numeric column.rows _ hl hn, MaxLoop_of_numeric column.rows _ hl hn⟩

/-- Witness of `Min_Max_throw_of_numeric`: the column with the Integer rows
30, -5, 12. -/
theorem Min_Max_throw_of_numeric_witness :
    ageColumn.rowsLive = true ∧ ageColumn.hasNumericRow = true ∧
    CQLAPI.Min ageColumn = Except.error Fault.bad_any_cast ∧
    CQLAPI.Max ageColumn = Except.error Fault.bad_any_cast :=
  ⟨by decide, by decide, Min_Max_throw_of_numeric ageColumn (by decide) (by decide)⟩

/-- C4, on the code: for the column with the Integer rows 30, -5, 12 `Sum`
does not return 37; it raises the type-cast failure `std::bad_any_cast`. -/
theorem Sum_ageColumn_throws :
    CQLAPI.Sum ageColumn = Except.error Fault.bad_any_cast := by
  rfl

/-- C5, on the code: for the column with the Integer rows 30, -5, 12, `Avg`
does not return `Sum` divided by the number of numeric rows; its call of `Sum`
throws `std::bad_any_cast`, and so does `Avg`. -/
theorem Avg_ageColumn_throws :
    CQLAPI.Avg ageColumn = Except.error Fault.bad_any_cast := by
  rfl

/-- C6, counterexample: on a column without rows and on a column holding only
a Text row, a Boolean row and an empty row, `Max` and `Min` return 0 and `Avg`
returns the quotient 0/0; none of them ends in an error outcome. -/
theorem aggregates_without_numeric_row_return :
    CQLAPI.Max emptyColumn = Except.ok (Double.fin 0) ∧
    CQLAPI.Min emptyColumn = Except.ok (Double.fin 0) ∧
    CQLAPI.Avg emptyColumn = Except.ok Double.nan ∧
    CQLAPI.Max textColumn = Except.ok (Double.fin 0) ∧
    CQLAPI.Min textColumn = Except.ok (Double.fin 0) ∧
    CQLAPI.Avg textColumn = Except.ok Double.nan := by
  exact ⟨rfl, rfl, rfl, rfl, rfl, rfl⟩

/-- C6, amended: for every column with zero numeric rows whose row pointers
are valid, `Max` and `Min` return 0, the value their fold starts from. -/
theorem Max_Min_zero_of_no_numeric (column : CQLColumn)
    (hl : column.rowsLive = true) (hn : column.hasNumericRow = false) :
    CQLAPI.Max column = Except.ok (Double.fin 0) ∧
    CQLAPI.Min column = Except.ok (Double.fin 0) :=
  ⟨MaxLoop_of_no_numeric column.rows _ hl hn, MinLoop_of_no_numeric column.rows _ hl hn⟩

/-- Witness of `Max_Min_zero_of_no_numeric`: the column holding a Text row, a
Boolean row and an empty row. -/
theorem Max_Min_zero_of_no_numeric_witness :
    textColumn.rowsLive = true ∧ textColumn.hasNumericRow = false ∧
    CQLAPI.Max textColumn = Except.ok (Double.fin 0) ∧
    CQLAPI.Min textColumn = Except.ok (Double.fin 0) :=
  ⟨by decide, by decide, Max_Min_zero_of_no_numeric textColumn (by decide) (by decide)⟩

/-- C7: for every column, `Count` is the number of entries of the row map,
the numeric rows and all other rows together; it is 3 for the rows 30, -5, 12
and 0 for a column without rows. -/
theorem Count_counts_every_row (column : CQLColumn) :
    CQLAPI.Count column = column.rows.length ∧
    CQLAPI.Count column =
      column.rows.countP entryNumeric + column.rows.countP (fun e => !entryNumeric e) ∧
    CQLAPI.Count ageColumn = 3 ∧
    CQLAPI.Count textColumn = 3 ∧
    CQLAPI.Count emptyColumn = 0 := by
  refine ⟨rfl, ?_, rfl, rfl, rfl⟩
  unfold CQLAPI.Count
  have h := List.length_eq_countP_add_countP entryNumeric column.rows
  have hc : List.countP (fun a => decide ¬entryNumeric a = true) column.rows =
      List.countP (fun e => !entryNumeric e) column.rows := by
    congr 1
    funext a
    cases entryNumeric a <;> rfl
  rw [hc] at h
  exact h


/-! ## Maps: lemmas -/

theorem mapFind_eq_none_iff {V : Type} (m : List (Int × V)) (key : Int) :
    mapFind m key = none ↔ ∀ entry ∈ m, entry.1 ≠ key := by
  induction m with
  | nil => simp [mapFind]
  | cons e rest ih =>
    obtain ⟨k, v⟩ := e
    by_cases hk : k = key
    · simp [mapFind, hk]
    · simp [mapFind, hk, ih]

theorem mapFind_mapInsert_self {V : Type} (m : List (Int × V)) (key : Int) (value : V)
    (h : mapFind m key = none) : mapFind (mapInsert m key value) key = some value := by
  induction m with
  | nil => simp [mapInsert, mapFind]
  | cons e rest ih =>
    obtain ⟨k, v⟩ := e
    have hk : k ≠ key := by
      intro hk
      simp [mapFind, hk] at h
    have hrest : mapFind rest key = none := by simpa [mapFind, hk] using h
    by_cases hlt : key < k
    · simp [mapInsert, hlt, mapFind]
    · simp [mapInsert, hlt, Ne.symm hk, mapFind, hk, ih hrest]

theorem mapFind_mapInsert_of_ne {V : Type} (m : List (Int × V)) (key other : Int) (value : V)
    (h : other ≠ key) : mapFind (mapInsert m key value) other = mapFind m other := by
  induction m with
  | nil => simp [mapInsert, mapFind, Ne.symm h]
  | cons e rest ih =>
    obtain ⟨k, v⟩ := e
    by_cases hlt : key < k
    · simp [mapInsert, hlt, mapFind, Ne.symm h]
    · by_cases hk : key = k
      · simp [mapInsert, hlt, hk]
      · by_cases hko : k = other
        · subst hko
          simp [mapInsert, hlt, hk, mapFind]
        · simp [mapInsert, hlt, hk, mapFind, hko, ih]

theorem length_mapInsert {V : Type} (m : List (Int × V)) (key : Int) (value : V)
    (h : mapFind m key = none) : (mapInsert m key value).length = m.length + 1 := by
  induction m with
  | nil => simp [mapInsert]
  | cons e rest ih =>
    obtain ⟨k, v⟩ := e
    have hk : k ≠ key := by
      intro hk
      simp [mapFind, hk] at h
    have hrest : mapFind rest key = none := by simpa [mapFind, hk] using h
    by_cases hlt : key < k
    · simp [mapInsert, hlt]
    · simp [mapInsert, hlt, Ne.symm hk, ih hrest]

theorem mapErase_of_not_key {V : Type} (m : List (Int × V)) (key : Int)
    (h : mapFind m key = none) : mapErase m key = m := by
  induction m with
  | nil => rfl
  | cons e rest ih =>
    obtain ⟨k, v⟩ := e
    by_cases hk : k = key
    · simp [mapFind, hk] at h
    · have hrest : mapFind rest key = none := by simpa [mapFind, hk] using h
      simp [mapErase, hk, ih hrest]

theorem mapErase_mapInsert {V : Type} (m : List (Int × V)) (key : Int) (value : V)
    (h : mapFind m key = none) : mapErase (mapInsert m key value) key = m := by
  induction m with
  | nil => simp [mapInsert, mapErase]
  | cons e rest ih =>
    obtain ⟨k, v⟩ := e
    have hk : k ≠ key := by
      intro hk
      simp [mapFind, hk] at h
    have hrest : mapFind rest key = none := by simpa [mapFind, hk] using h
    by_cases hlt : key < k
    · simp [mapInsert, hlt, mapErase, hk, mapErase_of_not_key rest key hrest]
    · simp [mapInsert, hlt, Ne.symm hk, mapErase, hk, ih hrest]

theorem mem_mapInsert {V : Type} (m : List (Int × V)) (key : Int) (value : V)
    (entry : Int × V) (h : entry ∈ mapInsert m key value) :
    entry ∈ m ∨ entry = (key, value) := by
  induction m with
  | nil => simpa [mapInsert] using h
  | cons e rest ih =>
    obtain ⟨k, v⟩ := e
    by_cases hlt : key < k
    · simp only [mapInsert, hlt, if_true, List.mem_cons] at h
      rcases h with h | h | h
      · exact Or.inr h
      · exact Or.inl (List.mem_cons.2 (Or.inl h))
      · exact Or.inl (List.mem_cons.2 (Or.inr h))
    · by_cases hk : key = k
      · simp only [mapInsert, hlt, hk, if_false, if_true] at h
        exact Or.inl (by simpa using h)
      · simp only [mapInsert, hlt, hk, if_false, List.mem_cons] at h
        rcases h with h | h
        · exact Or.inl (List.mem_cons.2 (Or.inl h))
        · rcases ih h with h2 | h2
          · exact Or.inl (List.mem_cons.2 (Or.inr h2))
          · exact Or.inr h2

theorem mapFind_mapErase_of_ne {V : Type} (m : List (Int × V)) (key other : Int)
    (h : other ≠ key) : mapFind (mapErase m key) other = mapFind m other := by
  induction m with
  | nil => simp [mapErase, mapFind]
  | cons e rest ih =>
    obtain ⟨k, v⟩ := e
    by_cases hk : k = key
    · have hko : k ≠ other := by
        intro hko
        exact h (hko ▸ hk)
      subst hk
      simp [mapErase, mapFind, ih, hko]
    · by_cases hko : k = other
      · subst hko
        simp [mapErase, hk, mapFind]
      · simp [mapErase, hk, mapFind, hko, ih]

theorem mem_of_mem_mapErase {V : Type} (m : List (Int × V)) (key : Int) (entry : Int × V)
    (h : entry ∈ mapErase m key) : entry ∈ m := by
  induction m with
  | nil => simp [mapErase] at h
  | cons e rest ih =>
    obtain ⟨k, v⟩ := e
    by_cases hk : k = key
    · simp only [mapErase, hk, if_true] at h
      exact List.mem_cons.2 (Or.inr (ih h))
    · simp only [mapErase, hk, if_false, List.mem_cons] at h
      rcases h with h | h
      · exact List.mem_cons.2 (Or.inl h)
      · exact List.mem_cons.2 (Or.inr (ih h))

theorem mapFind_mem {V : Type} (m : List (Int × V)) (key : Int) (value : V)
    (h : mapFind m key = some value) : (key, value) ∈ m := by
  induction m with
  | nil => simp [mapFind] at h
  | cons e rest ih =>
    obtain ⟨k, v⟩ := e
    by_cases hk : k = key
    · simp [mapFind, hk] at h
      simp [hk, h]
    · simp [mapFind, hk] at h
      exact List.mem_cons.2 (Or.inr (ih h))


/-! ## Column-id allocation: lemmas -/

theorem uniform_int_distribution_range (n entropy : Nat) :
    1 ≤ uniform_int_distribution 1 (10000 + n) entropy ∧
    uniform_int_distribution 1 (10000 + n) entropy ≤ 10000 + n := by
  unfold uniform_int_distribution
  have h : entropy % (10000 + n - 1 + 1) < 10000 + n - 1 + 1 := Nat.mod_lt _ (by omega)
  omega

theorem drawColumnId_some (m : List (Int × CQLColumn)) (generator : List Nat) (columnId : Int)
    (h : CQLAPI.drawColumnId m generator = some columnId) :
    mapFind m columnId = none ∧ 1 ≤ columnId ∧ columnId ≤ 10000 + (m.length : Int) := by
  induction generator with
  | nil => simp [CQLAPI.drawColumnId] at h
  | cons entropy rest ih =>
    simp only [CQLAPI.drawColumnId] at h
    split at h
    · exact ih h
    · rename_i hfree
      have hid := Option.some.inj h
      have hr := uniform_int_distribution_range m.length entropy
      subst hid
      refine ⟨by simpa using hfree, ?_, ?_⟩
      · exact_mod_cast hr.1
      · exact_mod_cast hr.2

theorem drawColumnId_isSome (m : List (Int × CQLColumn)) (generator : List Nat)
    (h : ∃ entropy ∈ generator,
      mapFind m ((uniform_int_distribution 1 (10000 + m.length) entropy : Nat) : Int) = none) :
    ∃ columnId, CQLAPI.drawColumnId m generator = some columnId := by
  induction generator with
  | nil => simp at h
  | cons entropy rest ih =>
    simp only [CQLAPI.drawColumnId]
    split
    · rename_i hused
      obtain ⟨e, he, hfree⟩ := h
      rcases List.mem_cons.1 he with he | he
      · subst he
        simp [hfree] at hused
      · exact ih ⟨e, he, hfree⟩
    · exact ⟨_, rfl⟩

theorem InsertColumn_some (self : CQLAPI) (column : CQLColumn) (generator : List Nat)
    (next : CQLAPI) (h : self.InsertColumn column generator = some next) :
    ∃ columnId, CQLAPI.drawColumnId self.CQLFile.columnHashmaps generator = some columnId ∧
      next.CQLFile.columnHashmaps =
        mapInsert self.CQLFile.columnHashmaps columnId
          { column with inUse := true, columnId := columnId } := by
  unfold CQLAPI.InsertColumn at h
  split at h
  · simp at h
  · rename_i columnId hdraw
    refine ⟨columnId, hdraw, ?_⟩
    have hn := Option.some.inj h
    rw [← hn]

theorem InsertColumn_of_draw (self : CQLAPI) (column : CQLColumn) (generator : List Nat)
    (columnId : Int)
    (h : CQLAPI.drawColumnId self.CQLFile.columnHashmaps generator = some columnId) :
    ∃ next, self.InsertColumn column generator = some next := by
  unfold CQLAPI.InsertColumn
  rw [h]
  exact ⟨_, rfl⟩

theorem assignedIds_inserts (calls : List Call) :
    ∀ (self : CQLAPI) (ids : List Int), calls.all Call.isInsertColumn = true →
      self.assignedIds calls = some ids →
      ids.Nodup ∧ ∀ columnId ∈ ids, mapFind self.CQLFile.columnHashmaps columnId = none := by
  induction calls with
  | nil =>
    intro self ids _ h
    simp [CQLAPI.assignedIds] at h
    subst h
    simp
  | cons call rest ih =>
    intro self ids hall h
    cases call with
    | RemoveColumn columnID => simp [Call.isInsertColumn] at hall
    | InsertColumn column generator =>
      simp only [List.all_cons, Bool.and_eq_true] at hall
      simp only [CQLAPI.assignedIds] at h
      split at h
      · rename_i columnId next hdraw hins
        split at h
        · rename_i ids2 hrest
          have hids := Option.some.inj h
          subst hids
          obtain ⟨hnodup, hfree⟩ := ih next ids2 hall.2 hrest
          obtain ⟨cid, hdraw2, hmap⟩ := InsertColumn_some self column generator next hins
          rw [hdraw] at hdraw2
          have hcid := Option.some.inj hdraw2
          subst hcid
          have hspec := drawColumnId_some _ _ _ hdraw
          have hnew : mapFind next.CQLFile.columnHashmaps columnId =
              some { column with inUse := true, columnId := columnId } := by
            rw [hmap]
            exact mapFind_mapInsert_self _ _ _ hspec.1
          have hnotin : columnId ∉ ids2 := by
            intro hmem
            have := hfree columnId hmem
            rw [hnew] at this
            exact Option.noConfusion this
          refine ⟨List.nodup_cons.2 ⟨hnotin, hnodup⟩, ?_⟩
          intro c hc
          rcases List.mem_cons.1 hc with hc | hc
          · rw [hc]; exact hspec.1
          · have hne : c ≠ columnId := by
              intro hcc
              exact hnotin (hcc ▸ hc)
            have := hfree c hc
            rw [hmap, mapFind_mapInsert_of_ne _ _ _ _ hne] at this
            exact this
        · simp at h
      · simp at h


theorem hasFreeDraw_of_drawColumnId (m : List (Int × CQLColumn)) (generator : List Nat)
    (columnId : Int) (h : CQLAPI.drawColumnId m generator = some columnId) :
    ∃ entropy ∈ generator,
      mapFind m ((uniform_int_distribution 1 (10000 + m.length) entropy : Nat) : Int) = none := by
  induction generator with
  | nil => simp [CQLAPI.drawColumnId] at h
  | cons entropy rest ih =>
    simp only [CQLAPI.drawColumnId] at h
    split at h
    · obtain ⟨e, he, hfree⟩ := ih h
      exact ⟨e, List.mem_cons.2 (Or.inr he), hfree⟩
    · rename_i hfree
      exact ⟨entropy, List.mem_cons.2 (Or.inl rfl), by simpa using hfree⟩

theorem InsertColumn_idsMatch (self : CQLAPI) (column : CQLColumn) (generator : List Nat)
    (next : CQLAPI) (hwf : self.idsMatch) (h : self.InsertColumn column generator = some next) :
    next.idsMatch := by
  obtain ⟨columnId, _, hmap⟩ := InsertColumn_some self column generator next h
  intro entry hentry
  rw [hmap] at hentry
  rcases mem_mapInsert _ _ _ _ hentry with hold | hnew
  · exact hwf entry hold
  · rw [hnew]

theorem RemoveColumn_int_columnHashmaps (self : CQLAPI) (columnID : Int) :
    (self.RemoveColumn_int columnID).CQLFile.columnHashmaps = self.CQLFile.columnHashmaps ∨
    ∃ col, mapFind self.CQLFile.columnHashmaps columnID = some col ∧
      (self.RemoveColumn_int columnID).CQLFile.columnHashmaps =
        mapErase self.CQLFile.columnHashmaps col.columnId := by
  unfold CQLAPI.RemoveColumn_int CQLAPI.GetColumn_int
  cases hfind : mapFind self.CQLFile.columnHashmaps columnID with
  | none => left; simp
  | some col =>
    by_cases hname : col.columnName = _BAD_COLUMN
    · left; simp [hname]
    · right
      exact ⟨col, rfl, by simp [hname]⟩

theorem RemoveColumn_int_idsMatch (self : CQLAPI) (columnID : Int) (hwf : self.idsMatch) :
    (self.RemoveColumn_int columnID).idsMatch := by
  intro entry hentry
  rcases RemoveColumn_int_columnHashmaps self columnID with hsame | ⟨col, _, herase⟩
  · rw [hsame] at hentry
    exact hwf entry hentry
  · rw [herase] at hentry
    exact hwf entry (mem_of_mem_mapErase _ _ _ hentry)

theorem RemoveColumn_int_keeps_key (self : CQLAPI) (columnID key : Int) (hwf : self.idsMatch)
    (hne : key ≠ columnID) :
    mapFind (self.RemoveColumn_int columnID).CQLFile.columnHashmaps key =
      mapFind self.CQLFile.columnHashmaps key := by
  rcases RemoveColumn_int_columnHashmaps self columnID with hsame | ⟨col, hfind, herase⟩
  · rw [hsame]
  · have hid : col.columnId = columnID := hwf (columnID, col) (mapFind_mem _ _ _ hfind)
    rw [herase, hid]
    exact mapFind_mapErase_of_ne _ _ _ hne

theorem InsertColumn_keeps_key (self : CQLAPI) (column : CQLColumn) (generator : List Nat)
    (next : CQLAPI) (key : Int) (h : self.InsertColumn column generator = some next)
    (hkey : (mapFind self.CQLFile.columnHashmaps key).isSome = true) :
    (mapFind next.CQLFile.columnHashmaps key).isSome = true := by
  obtain ⟨columnId, hdraw, hmap⟩ := InsertColumn_some self column generator next h
  have hfree := (drawColumnId_some _ _ _ hdraw).1
  have hne : key ≠ columnId := by
    intro hk
    rw [hk, hfree] at hkey
    simp at hkey
  rw [hmap, mapFind_mapInsert_of_ne _ _ _ _ hne]
  exact hkey

theorem run_keeps_key (calls : List Call) :
    ∀ (self final : CQLAPI) (key : Int), self.idsMatch → self.run calls = some final →
      Call.RemoveColumn key ∉ calls →
      (mapFind self.CQLFile.columnHashmaps key).isSome = true →
      final.idsMatch ∧ (mapFind final.CQLFile.columnHashmaps key).isSome = true := by
  induction calls with
  | nil =>
    intro self final key hwf hrun _ hkey
    simp [CQLAPI.run] at hrun
    subst hrun
    exact ⟨hwf, hkey⟩
  | cons call rest ih =>
    intro self final key hwf hrun hno hkey
    have hno2 : Call.RemoveColumn key ∉ rest := fun hmem => hno (List.mem_cons.2 (Or.inr hmem))
    cases call with
    | InsertColumn column generator =>
      simp only [CQLAPI.run] at hrun
      split at hrun
      · simp at hrun
      · rename_i next hins
        exact ih next final key (InsertColumn_idsMatch _ _ _ _ hwf hins) hrun hno2
          (InsertColumn_keeps_key _ _ _ _ _ hins hkey)
    | RemoveColumn columnID =>
      simp only [CQLAPI.run] at hrun
      have hne : key ≠ columnID := by
        intro hk
        exact hno (List.mem_cons.2 (Or.inl (by rw [hk])))
      refine ih _ final key (RemoveColumn_int_idsMatch _ _ hwf) hrun hno2 ?_
      rw [RemoveColumn_int_keeps_key _ _ _ hwf hne]
      exact hkey

theorem run_idsMatch (calls : List Call) :
    ∀ (self final : CQLAPI), self.idsMatch → self.run calls = some final → final.idsMatch := by
  induction calls with
  | nil =>
    intro self final hwf hrun
    simp [CQLAPI.run] at hrun
    subst hrun
    exact hwf
  | cons call rest ih =>
    intro self final hwf hrun
    cases call with
    | InsertColumn column generator =>
      simp only [CQLAPI.run] at hrun
      split at hrun
      · simp at hrun
      · rename_i next hins
        exact ih next final (InsertColumn_idsMatch _ _ _ _ hwf hins) hrun
    | RemoveColumn columnID =>
      simp only [CQLAPI.run] at hrun
      exact ih _ final (RemoveColumn_int_idsMatch _ _ hwf) hrun

/-! ## Column-id allocation: claims C8 - C10 -/

/-- C8: for every state of the document and every sequence of draws, the id
that `InsertColumn` assigns is not a key of the ID index; the call stores the
column under that id, grows the index by exactly one entry and leaves every
other entry as it was.  The call returns as soon as the generator delivers a
draw that is not a key.  Hence the ids assigned by any sequence of
`InsertColumn` calls are pairwise distinct, and none of them was a key of the
index before the sequence. -/
theorem InsertColumn_assigns_unused_id (self : CQLAPI) (column : CQLColumn)
    (generator : List Nat) :
    (self.hasFreeDraw generator → ∃ next, self.InsertColumn column generator = some next) ∧
    (∀ next, self.InsertColumn column generator = some next →
      ∃ columnId,
        CQLAPI.drawColumnId self.CQLFile.columnHashmaps generator = some columnId ∧
        mapFind self.CQLFile.columnHashmaps columnId = none ∧
        mapFind next.CQLFile.columnHashmaps columnId =
          some { column with inUse := true, columnId := columnId } ∧
        next.CQLFile.columnHashmaps.length = self.CQLFile.columnHashmaps.length + 1 ∧
        mapErase next.CQLFile.columnHashmaps columnId = self.CQLFile.columnHashmaps ∧
        ∀ other, other ≠ columnId →
          mapFind next.CQLFile.columnHashmaps other =
            mapFind self.CQLFile.columnHashmaps other) ∧
    (∀ calls ids, calls.all Call.isInsertColumn = true → self.assignedIds calls = some ids →
      ids.Nodup ∧ ∀ columnId ∈ ids, mapFind self.CQLFile.columnHashmaps columnId = none) := by
  refine ⟨?_, ?_, ?_⟩
  · intro hfree
    obtain ⟨columnId, hdraw⟩ := drawColumnId_isSome _ _ hfree
    exact InsertColumn_of_draw self column generator columnId hdraw
  · intro next h
    obtain ⟨columnId, hdraw, hmap⟩ := InsertColumn_some self column generator next h
    have hfree := (drawColumnId_some _ _ _ hdraw).1
    refine ⟨columnId, hdraw, hfree, ?_, ?_, ?_, ?_⟩
    · rw [hmap]; exact mapFind_mapInsert_self _ _ _ hfree
    · rw [hmap]; exact length_mapInsert _ _ _ hfree
    · rw [hmap]; exact mapErase_mapInsert _ _ _ hfree
    · intro other hne
      rw [hmap]; exact mapFind_mapInsert_of_ne _ _ _ _ hne
  · intro calls ids hall h
    exact assignedIds_inserts calls self ids hall h

/-- Witness of `InsertColumn_assigns_unused_id`: on a default-constructed
`CQLAPI` the draw 41 is free, so `InsertColumn` returns; two `InsertColumn`
calls whose first draws collide are assigned the distinct ids 42 and 100. -/
theorem InsertColumn_assigns_unused_id_witness :
    (∃ next, CQLAPI.fresh.InsertColumn (columnNamed "a") [41] = some next) ∧
    CQLAPI.fresh.assignedIds
      [Call.InsertColumn (columnNamed "a") [41], Call.InsertColumn (columnNamed "b") [41, 99]] =
      some [42, 100] ∧
    ([42, 100] : List Int).Nodup :=
  ⟨(InsertColumn_assigns_unused_id CQLAPI.fresh (columnNamed "a") [41]).1
      ⟨41, List.mem_singleton.2 rfl, rfl⟩,
   by decide,
   ((InsertColumn_assigns_unused_id CQLAPI.fresh (columnNamed "a") [41]).2.2
      [Call.InsertColumn (columnNamed "a") [41], Call.InsertColumn (columnNamed "b") [41, 99]]
      [42, 100] (by decide) (by decide)).1⟩

/-- C9, counterexample: on a default-constructed `CQLAPI`, `InsertColumn`
with the draw 41 assigns the id 42; after `RemoveColumn(42)` a second
`InsertColumn` with the same draw is assigned 42 again. -/
theorem InsertColumn_reuses_removed_id :
    CQLAPI.fresh.assignedIds
      [Call.InsertColumn (columnNamed "a") [41], Call.RemoveColumn 42,
       Call.InsertColumn (columnNamed "b") [41]] = some [42, 42] := by
  decide

/-- C9, amended: within one document, the id assigned by an `InsertColumn`
differs from the id assigned by every earlier `InsertColumn` whose id was not
passed to `RemoveColumn` in the meantime; the id of a removed column can be
assigned again.  Stated for every sequence of calls on a document whose ID
index stores each column under its own id. -/
theorem InsertColumn_id_differs_unless_removed (self first stored last : CQLAPI)
    (before between : List Call) (column : CQLColumn) (generator later : List Nat)
    (id1 id2 : Int)
    (hwf : self.idsMatch)
    (hbefore : self.run before = some first)
    (hid1 : CQLAPI.drawColumnId first.CQLFile.columnHashmaps generator = some id1)
    (hinsert : first.InsertColumn column generator = some stored)
    (hbetween : stored.run between = some last)
    (hkept : Call.RemoveColumn id1 ∉ between)
    (hid2 : CQLAPI.drawColumnId last.CQLFile.columnHashmaps later = some id2) :
    id2 ≠ id1 := by
  have hwf1 := run_idsMatch before self first hwf hbefore
  have hwf2 := InsertColumn_idsMatch _ _ _ _ hwf1 hinsert
  obtain ⟨cid, hdraw, hmap⟩ := InsertColumn_some first column generator stored hinsert
  rw [hid1] at hdraw
  have hcid := Option.some.inj hdraw
  subst hcid
  have hfree := (drawColumnId_some _ _ _ hid1).1
  have hkey : (mapFind stored.CQLFile.columnHashmaps id1).isSome = true := by
    rw [hmap, mapFind_mapInsert_self _ _ _ hfree]
    rfl
  have hlast := (run_keeps_key between stored last id1 hwf2 hbetween hkept hkey).2
  have hfree2 := (drawColumnId_some _ _ _ hid2).1
  intro heq
  rw [heq] at hfree2
  rw [hfree2] at hlast
  simp at hlast

/-- Witness of `InsertColumn_id_differs_unless_removed`: on a
default-constructed `CQLAPI`, after `InsertColumn` was assigned 42 and
`RemoveColumn(7)` was called, the next `InsertColumn` redraws on 42 and is
assigned 100. -/
theorem InsertColumn_id_differs_unless_removed_witness :
    CQLAPI.fresh.idsMatch ∧
    CQLAPI.fresh.run [] = some CQLAPI.fresh ∧
    CQLAPI.drawColumnId CQLAPI.fresh.CQLFile.columnHashmaps [41] = some 42 ∧
    CQLAPI.fresh.InsertColumn (columnNamed "a") [41] = some CQLAPI.freshWithA ∧
    CQLAPI.freshWithA.run [Call.RemoveColumn 7] = some CQLAPI.freshWithA ∧
    Call.RemoveColumn 42 ∉ [Call.RemoveColumn 7] ∧
    CQLAPI.drawColumnId CQLAPI.freshWithA.CQLFile.columnHashmaps [41, 99] = some 100 ∧
    (100 : Int) ≠ 42 :=
  ⟨by intro entry hentry; simp [CQLAPI.fresh] at hentry,
   rfl, rfl, rfl, rfl, by simp, rfl,
   InsertColumn_id_differs_unless_removed CQLAPI.fresh CQLAPI.fresh CQLAPI.freshWithA
     CQLAPI.freshWithA [] [Call.RemoveColumn 7] (columnNamed "a") [41] [41, 99] 42 100
     (by intro entry hentry; simp [CQLAPI.fresh] at hentry) rfl rfl rfl rfl (by simp) rfl⟩

/-- C10: for every state of the document with `n` columns in the ID index,
the column that `InsertColumn` stores has `inUse = true` and an id in the
closed range `[1, 10000 + n]`, whatever `inUse` and `columnId` the caller's
column carried; its name and rows are the caller's.  The call returns as soon
as the generator delivers a draw that is not a key of the index. -/
theorem InsertColumn_stores_inUse_and_id_in_range (self : CQLAPI) (column : CQLColumn)
    (generator : List Nat) :
    (self.hasFreeDraw generator → ∃ next, self.InsertColumn column generator = some next) ∧
    (∀ next, self.InsertColumn column generator = some next →
      ∃ columnId stored,
        mapFind self.CQLFile.columnHashmaps columnId = none ∧
        mapFind next.CQLFile.columnHashmaps columnId = some stored ∧
        stored.inUse = true ∧
        stored.columnId = columnId ∧
        1 ≤ stored.columnId ∧
        stored.columnId ≤ 10000 + (self.CQLFile.columnHashmaps.length : Int) ∧
        stored.columnName = column.columnName ∧
        stored.rows = column.rows) := by
  refine ⟨?_, ?_⟩
  · intro hfree
    obtain ⟨columnId, hdraw⟩ := drawColumnId_isSome _ _ hfree
    exact InsertColumn_of_draw self column generator columnId hdraw
  · intro next h
    obtain ⟨columnId, hdraw, hmap⟩ := InsertColumn_some self column generator next h
    obtain ⟨hfree, hlo, hhi⟩ := drawColumnId_some _ _ _ hdraw
    refine ⟨columnId, { column with inUse := true, columnId := columnId }, hfree, ?_,
      rfl, rfl, hlo, hhi, rfl, rfl⟩
    rw [hmap]
    exact mapFind_mapInsert_self _ _ _ hfree

/-- Witness of `InsertColumn_stores_inUse_and_id_in_range`: on a
default-constructed `CQLAPI` the draw 41 is free and `InsertColumn` returns;
a caller's column with `inUse = false` and `columnId = 0` is stored with
`inUse = true` under an id of `[1, 10000]`. -/
theorem InsertColumn_stores_inUse_and_id_in_range_witness :
    (∃ next, CQLAPI.fresh.InsertColumn (columnNamed "a") [41] = some next) ∧
    CQLAPI.fresh.InsertColumn (columnNamed "a") [41] = some CQLAPI.freshWithA ∧
    (∃ columnId stored,
      mapFind CQLAPI.fresh.CQLFile.columnHashmaps columnId = none ∧
      mapFind CQLAPI.freshWithA.CQLFile.columnHashmaps columnId = some stored ∧
      stored.inUse = true ∧ stored.columnId = columnId ∧ 1 ≤ stored.columnId ∧
      stored.columnId ≤ 10000 + (CQLAPI.fresh.CQLFile.columnHashmaps.length : Int) ∧
      stored.columnName = (columnNamed "a").columnName ∧
      stored.rows = (columnNamed "a").rows) :=
  ⟨(InsertColumn_stores_inUse_and_id_in_range CQLAPI.fresh (columnNamed "a") [41]).1
      ⟨41, List.mem_singleton.2 rfl, rfl⟩,
   rfl,
   (InsertColumn_stores_inUse_and_id_in_range CQLAPI.fresh (columnNamed "a") [41]).2
      CQLAPI.freshWithA rfl⟩

/-! ## Name index: lemmas -/

theorem umapFind_umapAssign_self {V : Type} (m : List (String × V)) (key : String) (value : V) :
    umapFind (umapAssign m key value) key = some value := by
  induction m with
  | nil => simp [umapAssign, umapFind]
  | cons e rest ih =>
    obtain ⟨k, v⟩ := e
    by_cases hk : k = key
    · simp [umapAssign, hk, umapFind]
    · simp [umapAssign, hk, umapFind, ih]

theorem umapFind_umapAssign_of_ne {V : Type} (m : List (String × V)) (key other : String)
    (value : V) (h : other ≠ key) :
    umapFind (umapAssign m key value) other = umapFind m other := by
  induction m with
  | nil => simp [umapAssign, umapFind, Ne.symm h]
  | cons e rest ih =>
    obtain ⟨k, v⟩ := e
    by_cases hk : k = key
    · subst hk
      simp [umapAssign, umapFind, Ne.symm h]
    · by_cases hko : k = other
      · subst hko
        simp [umapAssign, hk, umapFind]
      · simp [umapAssign, hk, umapFind, hko, ih]

theorem keys_umapAssign_of_present {V : Type} (m : List (String × V)) (key : String) (value : V)
    (h : (umapFind m key).isSome = true) :
    (umapAssign m key value).map Prod.fst = m.map Prod.fst := by
  induction m with
  | nil => simp [umapFind] at h
  | cons e rest ih =>
    obtain ⟨k, v⟩ := e
    by_cases hk : k = key
    · simp [umapAssign, hk]
    · have hrest : (umapFind rest key).isSome = true := by simpa [umapFind, hk] using h
      simp [umapAssign, hk, ih hrest]

theorem umapFind_umapErase_self {V : Type} (m : List (String × V)) (key : String) :
    umapFind (umapErase m key) key = none := by
  induction m with
  | nil => simp [umapErase, umapFind]
  | cons e rest ih =>
    obtain ⟨k, v⟩ := e
    by_cases hk : k = key
    · simp [umapErase, hk, ih]
    · simp [umapErase, hk, umapFind, ih]

theorem umapFind_umapErase_of_ne {V : Type} (m : List (String × V)) (key other : String)
    (h : other ≠ key) : umapFind (umapErase m key) other = umapFind m other := by
  induction m with
  | nil => simp [umapErase, umapFind]
  | cons e rest ih =>
    obtain ⟨k, v⟩ := e
    by_cases hk : k = key
    · subst hk
      simp [umapErase, umapFind, ih, Ne.symm h]
    · by_cases hko : k = other
      · subst hko
        simp [umapErase, hk, umapFind]
      · simp [umapErase, hk, umapFind, hko, ih]

theorem mapFind_mapErase_self {V : Type} (m : List (Int × V)) (key : Int) :
    mapFind (mapErase m key) key = none := by
  induction m with
  | nil => simp [mapErase, mapFind]
  | cons e rest ih =>
    obtain ⟨k, v⟩ := e
    by_cases hk : k = key
    · simp [mapErase, hk, ih]
    · simp [mapErase, hk, mapFind, ih]

theorem InsertColumn_columns (self : CQLAPI) (column : CQLColumn) (generator : List Nat)
    (next : CQLAPI) (h : self.InsertColumn column generator = some next) :
    ∃ columnId, CQLAPI.drawColumnId self.CQLFile.columnHashmaps generator = some columnId ∧
      next.CQLFile.savedTable.columns =
        umapAssign self.CQLFile.savedTable.columns column.columnName
          (Ptr.dangling { column with inUse := true, columnId := columnId }) ∧
      next.CQLFile.tableSnapshots = self.CQLFile.tableSnapshots := by
  unfold CQLAPI.InsertColumn at h
  split at h
  · simp at h
  · rename_i columnId hdraw
    refine ⟨columnId, hdraw, ?_, ?_⟩
    · have hn := Option.some.inj h
      rw [← hn]
    · have hn := Option.some.inj h
      rw [← hn]

theorem RemoveColumn_int_of_found (self : CQLAPI) (columnID : Int) (col : CQLColumn)
    (hfind : mapFind self.CQLFile.columnHashmaps columnID = some col)
    (hname : col.columnName ≠ _BAD_COLUMN) :
    self.RemoveColumn_int columnID =
      { CQLFile := { self.CQLFile with
          columnHashmaps := mapErase self.CQLFile.columnHashmaps col.columnId
          savedTable := { self.CQLFile.savedTable with
            columns := umapErase self.CQLFile.savedTable.columns col.columnName } } } := by
  unfold CQLAPI.RemoveColumn_int CQLAPI.GetColumn_int
  simp [hfind, hname]

theorem GetColumn_string_eq (self : CQLAPI) (columnName : String) :
    self.GetColumn_string columnName = Except.error Fault.invalid_dereference := rfl

theorem AddRow_eq (self : CQLAPI) (columnName : String) (row : CQLRow) (entropy : Nat) :
    self.AddRow columnName row entropy = Except.error Fault.invalid_dereference := rfl

/-! ## Name index, rows, documents and snapshots: claims C11 - C20 -/

/-- C11, on the code: after every `InsertColumn` that returns, the entry of
the name index under the column's name is overwritten, the entries under all
other names stay and a name that was present keeps its single place in the key
list; but the entry is `&column`, the address of the by-value parameter that
carried the new id and is destroyed on return.  It does not refer to the
inserted column: dereferencing it is invalid. -/
theorem InsertColumn_name_entry_dangles (self : CQLAPI) (column : CQLColumn)
    (generator : List Nat) (next : CQLAPI)
    (h : self.InsertColumn column generator = some next) :
    ∃ columnId entry,
      CQLAPI.drawColumnId self.CQLFile.columnHashmaps generator = some columnId ∧
      umapFind next.CQLFile.savedTable.columns column.columnName = some entry ∧
      entry = Ptr.dangling { column with inUse := true, columnId := columnId } ∧
      entry.deref = Except.error Fault.invalid_dereference ∧
      (∀ name, name ≠ column.columnName →
        umapFind next.CQLFile.savedTable.columns name =
          umapFind self.CQLFile.savedTable.columns name) ∧
      ((umapFind self.CQLFile.savedTable.columns column.columnName).isSome = true →
        next.CQLFile.savedTable.columns.map Prod.fst =
          self.CQLFile.savedTable.columns.map Prod.fst) := by
  obtain ⟨columnId, hdraw, hcols, _⟩ := InsertColumn_columns self column generator next h
  refine ⟨columnId, _, hdraw, ?_, rfl, rfl, ?_, ?_⟩
  · rw [hcols]
    exact umapFind_umapAssign_self _ _ _
  · intro name hne
    rw [hcols]
    exact umapFind_umapAssign_of_ne _ _ _ _ hne
  · intro hpresent
    rw [hcols]
    exact keys_umapAssign_of_present _ _ _ hpresent

/-- Witness of `InsertColumn_name_entry_dangles`: a second column named `"a"`
is inserted into the state that already has one; the draw 7 gives the id 8. -/
theorem InsertColumn_name_entry_dangles_witness :
    CQLAPI.freshWithA.InsertColumn (columnNamed "a") [7] =
      some { CQLFile := { CQLAPI.freshWithA.CQLFile with
        savedTable := { CQLAPI.freshWithA.CQLFile.savedTable with
          columns := [("a", Ptr.dangling { columnNamed "a" with inUse := true, columnId := 8 })] }
        columnHashmaps := [(8, { columnNamed "a" with inUse := true, columnId := 8 }),
                           (42, { columnNamed "a" with inUse := true, columnId := 42 })] } } ∧
    ∃ columnId entry,
      CQLAPI.drawColumnId CQLAPI.freshWithA.CQLFile.columnHashmaps [7] = some columnId ∧
      umapFind [("a", Ptr.dangling { columnNamed "a" with inUse := true, columnId := 8 })]
        (columnNamed "a").columnName = some entry ∧
      entry = Ptr.dangling { columnNamed "a" with inUse := true, columnId := columnId } ∧
      entry.deref = Except.error Fault.invalid_dereference ∧
      (∀ name, name ≠ (columnNamed "a").columnName →
        umapFind [("a", Ptr.dangling { columnNamed "a" with inUse := true, columnId := 8 })] name =
          umapFind CQLAPI.freshWithA.CQLFile.savedTable.columns name) ∧
      ((umapFind CQLAPI.freshWithA.CQLFile.savedTable.columns
          (columnNamed "a").columnName).isSome = true →
        ([("a", Ptr.dangling { columnNamed "a" with inUse := true, columnId := 8 })] :
          List (String × Ptr CQLColumn)).map Prod.fst =
          CQLAPI.freshWithA.CQLFile.savedTable.columns.map Prod.fst) :=
  ⟨rfl, InsertColumn_name_entry_dangles CQLAPI.freshWithA (columnNamed "a") [7] _ rfl⟩


/-- C12, counterexample: a column named `"INVALID_COLUMN"` is inserted into a
default-constructed `CQLAPI` and is stored under the id 42; `RemoveColumn(42)`
leaves the state as it is, the column stays in both indexes. -/
theorem RemoveColumn_int_keeps_bad_name :
    CQLAPI.fresh.InsertColumn (columnNamed "INVALID_COLUMN") [41] =
      some CQLAPI.freshWithBadName ∧
    (mapFind CQLAPI.freshWithBadName.CQLFile.columnHashmaps 42).isSome = true ∧
    CQLAPI.freshWithBadName.RemoveColumn_int 42 = CQLAPI.freshWithBadName ∧
    (mapFind (CQLAPI.freshWithBadName.RemoveColumn_int 42).CQLFile.columnHashmaps 42).isSome =
      true ∧
    (umapFind (CQLAPI.freshWithBadName.RemoveColumn_int 42).CQLFile.savedTable.columns
      "INVALID_COLUMN").isSome = true := by
  exact ⟨rfl, rfl, rfl, rfl, rfl⟩

/-- C12, amended: for every document state whose ID index stores each column
under its own id, and every id that is a key of the ID index for a column not
named `"INVALID_COLUMN"`, after `RemoveColumn(id)` the id is no longer a key
of the ID index and the column's name is no longer a key of the name index;
the entries of the ID index under all other ids and the entries of the name
index under all other names are unchanged, and so are the snapshots, the
metadata and the other members of the document. -/
theorem RemoveColumn_int_removes_from_both (self : CQLAPI) (columnID : Int) (col : CQLColumn)
    (hwf : self.idsMatch)
    (hfind : mapFind self.CQLFile.columnHashmaps columnID = some col)
    (hname : col.columnName ≠ _BAD_COLUMN) :
    mapFind (self.RemoveColumn_int columnID).CQLFile.columnHashmaps columnID = none ∧
    umapFind (self.RemoveColumn_int columnID).CQLFile.savedTable.columns col.columnName = none ∧
    (∀ other, other ≠ columnID →
      mapFind (self.RemoveColumn_int columnID).CQLFile.columnHashmaps other =
        mapFind self.CQLFile.columnHashmaps other) ∧
    (∀ name, name ≠ col.columnName →
      umapFind (self.RemoveColumn_int columnID).CQLFile.savedTable.columns name =
        umapFind self.CQLFile.savedTable.columns name) ∧
    (self.RemoveColumn_int columnID).CQLFile.tableSnapshots = self.CQLFile.tableSnapshots ∧
    (self.RemoveColumn_int columnID).CQLFile.documentSnapshots =
      self.CQLFile.documentSnapshots ∧
    (self.RemoveColumn_int columnID).CQLFile.documentMetadata = self.CQLFile.documentMetadata ∧
    (self.RemoveColumn_int columnID).CQLFile.inUse = self.CQLFile.inUse := by
  have hid : col.columnId = columnID := hwf (columnID, col) (mapFind_mem _ _ _ hfind)
  rw [RemoveColumn_int_of_found self columnID col hfind hname, hid]
  refine ⟨?_, ?_, ?_, ?_, rfl, rfl, rfl, rfl⟩
  · exact mapFind_mapErase_self _ _
  · exact umapFind_umapErase_self _ _
  · intro other hne
    exact mapFind_mapErase_of_ne _ _ _ hne
  · intro name hne
    exact umapFind_umapErase_of_ne _ _ _ hne

/-- Witness of `RemoveColumn_int_removes_from_both`: the column `"a"` stored
under the id 42 is removed by `RemoveColumn(42)`. -/
theorem RemoveColumn_int_removes_from_both_witness :
    CQLAPI.freshWithA.idsMatch ∧
    mapFind CQLAPI.freshWithA.CQLFile.columnHashmaps 42 =
      some { columnNamed "a" with inUse := true, columnId := 42 } ∧
    ({ columnNamed "a" with inUse := true, columnId := 42 } : CQLColumn).columnName ≠
      _BAD_COLUMN ∧
    mapFind (CQLAPI.freshWithA.RemoveColumn_int 42).CQLFile.columnHashmaps 42 = none ∧
    umapFind (CQLAPI.freshWithA.RemoveColumn_int 42).CQLFile.savedTable.columns "a" = none :=
  ⟨by intro entry hentry; simp [CQLAPI.freshWithA] at hentry; rw [hentry],
   rfl, by decide,
   (RemoveColumn_int_removes_from_both CQLAPI.freshWithA 42
      { columnNamed "a" with inUse := true, columnId := 42 }
      (by intro entry hentry; simp [CQLAPI.freshWithA] at hentry; rw [hentry])
      rfl (by decide)).1,
   (RemoveColumn_int_removes_from_both CQLAPI.freshWithA 42
      { columnNamed "a" with inUse := true, columnId := 42 }
      (by intro entry hentry; simp [CQLAPI.freshWithA] at hentry; rw [hentry])
      rfl (by decide)).2.1⟩

/-- C13: for every document state and every id that is not a key of the ID
index, `RemoveColumn(id)` performs no mutation: the whole state, and so the ID
index, the name index, the snapshots and the metadata, is the one before the
call. -/
theorem RemoveColumn_int_absent_id (self : CQLAPI) (columnID : Int)
    (habsent : mapFind self.CQLFile.columnHashmaps columnID = none) :
    self.RemoveColumn_int columnID = self ∧
    (self.RemoveColumn_int columnID).CQLFile.columnHashmaps = self.CQLFile.columnHashmaps ∧
    (self.RemoveColumn_int columnID).CQLFile.savedTable.columns =
      self.CQLFile.savedTable.columns ∧
    (self.RemoveColumn_int columnID).CQLFile.tableSnapshots = self.CQLFile.tableSnapshots ∧
    (self.RemoveColumn_int columnID).CQLFile.documentSnapshots =
      self.CQLFile.documentSnapshots ∧
    (self.RemoveColumn_int columnID).CQLFile.documentMetadata =
      self.CQLFile.documentMetadata := by
  have h : self.RemoveColumn_int columnID = self := by
    unfold CQLAPI.RemoveColumn_int CQLAPI.GetColumn_int
    simp [habsent]
  rw [h]
  exact ⟨rfl, rfl, rfl, rfl, rfl, rfl⟩

/-- Witness of `RemoveColumn_int_absent_id`: the id 7 is not a key of the ID
index that holds the column `"a"` under 42. -/
theorem RemoveColumn_int_absent_id_witness :
    mapFind CQLAPI.freshWithA.CQLFile.columnHashmaps 7 = none ∧
    CQLAPI.freshWithA.RemoveColumn_int 7 = CQLAPI.freshWithA :=
  ⟨rfl, (RemoveColumn_int_absent_id CQLAPI.freshWithA 7 rfl).1⟩


/-- C14, on the code: `GetColumn(name)` is not a lookup that reports
not-found.  For every state and every name, present or absent, its second
statement writes through the null pointer `col`, an invalid dereference, and
`RemoveColumn(name)` and `AddRow(name, row)`, which start with that call, end
the same way.  The lookup after it is `columns[columnName]`, which for an
absent name adds an entry with a null pointer to the name index. -/
theorem GetColumn_string_faults (self : CQLAPI) (columnName : String) (row : CQLRow)
    (entropy : Nat) :
    self.GetColumn_string columnName = Except.error Fault.invalid_dereference ∧
    self.RemoveColumn_string columnName = Except.error Fault.invalid_dereference ∧
    self.AddRow columnName row entropy = Except.error Fault.invalid_dereference ∧
    (umapFind self.CQLFile.savedTable.columns columnName = none →
      (umapIndex self.CQLFile.savedTable.columns columnName).1 =
        self.CQLFile.savedTable.columns ++ [(columnName, Ptr.null)] ∧
      (umapIndex self.CQLFile.savedTable.columns columnName).2 = Ptr.null) := by
  refine ⟨rfl, rfl, rfl, ?_⟩
  intro habsent
  simp [umapIndex, habsent]

/-- Witness of `GetColumn_string_faults`: the name `"x"` is absent from the
name index that holds `"a"`; `GetColumn("x")` ends in the invalid dereference
and `columns["x"]` adds the entry `"x" -> nullptr`. -/
theorem GetColumn_string_faults_witness :
    umapFind CQLAPI.freshWithA.CQLFile.savedTable.columns "x" = none ∧
    CQLAPI.freshWithA.GetColumn_string "x" = Except.error Fault.invalid_dereference ∧
    (umapIndex CQLAPI.freshWithA.CQLFile.savedTable.columns "x").1 =
      CQLAPI.freshWithA.CQLFile.savedTable.columns ++ [("x", Ptr.null)] :=
  ⟨rfl, (GetColumn_string_faults CQLAPI.freshWithA "x" textRow 5).1,
   ((GetColumn_string_faults CQLAPI.freshWithA "x" textRow 5).2.2.2 rfl).1⟩

/-- C15, on the code: `AddRow` stores no row.  For every state, column name,
row and draw the call ends in an invalid dereference (the null pointer in
`GetColumn`); and whatever pointer `GetColumn` were to return, the rest of
`AddRow` either ends in an invalid dereference (the pointer itself, or
`col->rows.end()->first`, the read through the past-the-end iterator) or
returns without a change (column named `"INVALID_COLUMN"`). -/
theorem AddRow_stores_no_row (self : CQLAPI) (columnName : String) (row : CQLRow)
    (entropy : Nat) (col : Ptr CQLColumn) :
    self.AddRow columnName row entropy = Except.error Fault.invalid_dereference ∧
    (self.AddRow_from columnName col row entropy = Except.error Fault.invalid_dereference ∨
      self.AddRow_from columnName col row entropy = Except.ok self) ∧
    CQLAPI.freshWithA.AddRow "a" textRow 5 = Except.error Fault.invalid_dereference ∧
    CQLAPI.freshWithA.AddRow_from "a" (Ptr.live emptyColumn) textRow 5 =
      Except.error Fault.invalid_dereference := by
  refine ⟨rfl, ?_, rfl, rfl⟩
  cases col with
  | null => exact Or.inl rfl
  | dangling last => exact Or.inl rfl
  | live column =>
    by_cases hname : column.columnName = _BAD_COLUMN
    · right
      simp [CQLAPI.AddRow_from, Ptr.deref, hname]
    · left
      simp [CQLAPI.AddRow_from, Ptr.deref, hname, mapEndFirst]

/-- C16, on the code: lines 194-204 of `AddRow` draw the row id once and store
the row without looking at the ids of the rows in the column.  Entered for a
column that holds a row with id 5 under index 0, with the draw 5, they store a
second row with id 5 under index 1: the row ids of the column are 5, 5. -/
theorem AddRow_store_repeats_rowID :
    columnWithRow5.rowIDs = [5] ∧
    (match umapFind
        (CQLAPI.freshWithA.AddRow_store "a" (Ptr.live columnWithRow5) columnWithRow5 0
          textRow 5).CQLFile.savedTable.columns "a" with
      | some (Ptr.live column) => column.rowIDs
      | _ => []) = [5, 5] ∧
    (match umapFind
        (CQLAPI.freshWithA.AddRow_store "a" (Ptr.live columnWithRow5) columnWithRow5 0
          textRow 5).CQLFile.savedTable.columns "a" with
      | some (Ptr.live column) => column.rows.map Prod.fst
      | _ => []) = [0, 1] := by
  exact ⟨rfl, rfl, rfl⟩


/-! ## Documents and snapshots -/

theorem MakeCQLFile_fields (self : CQLDocument) (CQLFileName CQLFilePath : String)
    (fileOpens : Bool) :
    (self.MakeCQLFile CQLFileName CQLFilePath fileOpens).inUse = self.inUse ∧
    (self.MakeCQLFile CQLFileName CQLFilePath fileOpens).documentSnapshots =
      self.documentSnapshots := by
  unfold CQLDocument.MakeCQLFile
  cases fileOpens <;> simp

theorem RemoveColumn_int_tableSnapshots (self : CQLAPI) (columnID : Int) :
    (self.RemoveColumn_int columnID).CQLFile.tableSnapshots = self.CQLFile.tableSnapshots := by
  unfold CQLAPI.RemoveColumn_int
  by_cases hname : (self.GetColumn_int columnID).columnName = _BAD_COLUMN
  · simp [hname]
  · simp [hname]

theorem run_tableSnapshots (calls : List Call) :
    ∀ (self final : CQLAPI), self.run calls = some final →
      final.CQLFile.tableSnapshots = self.CQLFile.tableSnapshots := by
  induction calls with
  | nil =>
    intro self final hrun
    simp [CQLAPI.run] at hrun
    rw [hrun]
  | cons call rest ih =>
    intro self final hrun
    cases call with
    | InsertColumn column generator =>
      simp only [CQLAPI.run] at hrun
      split at hrun
      · simp at hrun
      · rename_i next hins
        obtain ⟨_, _, _, hsnap⟩ := InsertColumn_columns self column generator next hins
        rw [ih next final hrun, hsnap]
    | RemoveColumn columnID =>
      simp only [CQLAPI.run] at hrun
      rw [ih _ final hrun, RemoveColumn_int_tableSnapshots]

/-- C17: for every store state, after `MakeNewDocument` the current document
has `inUse = true`.  If the previous current document was in use, the
`documentSnapshots` of the new document consist of one copy of it with
`inUse = false` and the same table, ID index, table id, file name, file path,
creation time, file path of the `.cql` file and snapshots; otherwise they are
empty.  In both cases no document with `inUse = true` is in
`documentSnapshots`.  After `MakeNewDocument("A", "/tmp")` and
`MakeNewDocument("B", "/tmp")` the current document is `"B"`, in use, and its
`documentSnapshots` hold `"A"` with `inUse = false`. -/
theorem MakeNewDocument_one_active (self : CQLAPI) (CQLFileName CQLFilePath : String)
    (logTime tableID timeCreated : Int) (fileOpens : Bool) :
    (self.MakeNewDocument CQLFileName CQLFilePath logTime tableID timeCreated
      fileOpens).CQLFile.inUse = true ∧
    (self.CQLFile.inUse = true →
      ∃ old,
        (self.MakeNewDocument CQLFileName CQLFilePath logTime tableID timeCreated
          fileOpens).CQLFile.documentSnapshots = [old] ∧
        old.inUse = false ∧
        old.savedTable = self.CQLFile.savedTable ∧
        old.columnHashmaps = self.CQLFile.columnHashmaps ∧
        old.CQLTableID = self.CQLFile.CQLTableID ∧
        old.documentMetadata.fileName = self.CQLFile.documentMetadata.fileName ∧
        old.documentMetadata.filePath = self.CQLFile.documentMetadata.filePath ∧
        old.documentMetadata.timeCreated = self.CQLFile.documentMetadata.timeCreated ∧
        old.cqlFilePath = self.CQLFile.cqlFilePath ∧
        old.tableSnapshots = self.CQLFile.tableSnapshots ∧
        old.documentSnapshots = self.CQLFile.documentSnapshots) ∧
    (self.CQLFile.inUse = false →
      (self.MakeNewDocument CQLFileName CQLFilePath logTime tableID timeCreated
        fileOpens).CQLFile.documentSnapshots = []) ∧
    (∀ document ∈ (self.MakeNewDocument CQLFileName CQLFilePath logTime tableID timeCreated
        fileOpens).CQLFile.documentSnapshots, document.inUse = false) ∧
    ((CQLAPI.fresh.MakeNewDocument "A" "/tmp" 100 7 100 true).MakeNewDocument "B" "/tmp"
        200 8 200 true).CQLFile.inUse = true ∧
    ((CQLAPI.fresh.MakeNewDocument "A" "/tmp" 100 7 100 true).MakeNewDocument "B" "/tmp"
        200 8 200 true).CQLFile.documentMetadata.fileName = "B" ∧
    ((CQLAPI.fresh.MakeNewDocument "A" "/tmp" 100 7 100 true).MakeNewDocument "B" "/tmp"
        200 8 200 true).CQLFile.documentSnapshots.map
          (fun document => (document.documentMetadata.fileName, document.inUse)) =
      [("A", false)] := by
  have hsnap : (self.MakeNewDocument CQLFileName CQLFilePath logTime tableID timeCreated
      fileOpens).CQLFile.documentSnapshots =
      if self.CQLFile.inUse then
        [({ self.CQLFile with inUse := false }).Log "Document No Longer Being Used" logTime]
      else [] := by
    unfold CQLAPI.MakeNewDocument
    simp only [(MakeCQLFile_fields _ _ _ _).2]
    cases self.CQLFile.inUse <;> simp [CQLAPI.fresh]
  refine ⟨?_, ?_, ?_, ?_, rfl, rfl, rfl⟩
  · unfold CQLAPI.MakeNewDocument
    simp only [(MakeCQLFile_fields _ _ _ _).1]
  · intro hactive
    refine ⟨({ self.CQLFile with inUse := false }).Log "Document No Longer Being Used" logTime,
      ?_, rfl, rfl, rfl, rfl, rfl, rfl, rfl, rfl, rfl, rfl⟩
    rw [hsnap, hactive]
    rfl
  · intro hidle
    rw [hsnap, hidle]
    rfl
  · intro document hmem
    rw [hsnap] at hmem
    cases hinuse : self.CQLFile.inUse with
    | false => rw [hinuse] at hmem; simp at hmem
    | true =>
      rw [hinuse] at hmem
      simp at hmem
      rw [hmem]
      rfl

/-- Witness of `MakeNewDocument_one_active`: the document `"A"` is in use when
`MakeNewDocument("B", "/tmp")` is called. -/
theorem MakeNewDocument_one_active_witness :
    (CQLAPI.fresh.MakeNewDocument "A" "/tmp" 100 7 100 true).CQLFile.inUse = true ∧
    ∃ old,
      ((CQLAPI.fresh.MakeNewDocument "A" "/tmp" 100 7 100 true).MakeNewDocument "B" "/tmp"
        200 8 200 true).CQLFile.documentSnapshots = [old] ∧
      old.inUse = false ∧
      old.savedTable = (CQLAPI.fresh.MakeNewDocument "A" "/tmp" 100 7 100 true).CQLFile.savedTable :=
  ⟨rfl, by
    obtain ⟨old, h1, h2, h3, _⟩ :=
      (MakeNewDocument_one_active (CQLAPI.fresh.MakeNewDocument "A" "/tmp" 100 7 100 true)
        "B" "/tmp" 200 8 200 true).2.1 rfl
    exact ⟨old, h1, h2, h3⟩⟩

/-- C18: for every document state, `TakeTableSnapshot` appends exactly one
element, equal to the current table, to the end of `tableSnapshots`, keeps the
earlier table snapshots in place and in order, and changes nothing else of the
document: live table, ID index, `documentSnapshots`, metadata, `inUse`, table
id and file path are the ones before the call. -/
theorem TakeTableSnapshot_appends (self : CQLAPI) :
    self.TakeTableSnapshot.CQLFile.tableSnapshots.length =
      self.CQLFile.tableSnapshots.length + 1 ∧
    self.TakeTableSnapshot.CQLFile.tableSnapshots.getLast? = some self.CQLFile.savedTable ∧
    self.TakeTableSnapshot.CQLFile.tableSnapshots.take self.CQLFile.tableSnapshots.length =
      self.CQLFile.tableSnapshots ∧
    self.TakeTableSnapshot.CQLFile.savedTable = self.CQLFile.savedTable ∧
    self.TakeTableSnapshot.CQLFile.columnHashmaps = self.CQLFile.columnHashmaps ∧
    self.TakeTableSnapshot.CQLFile.documentSnapshots = self.CQLFile.documentSnapshots ∧
    self.TakeTableSnapshot.CQLFile.documentMetadata = self.CQLFile.documentMetadata ∧
    self.TakeTableSnapshot.CQLFile.inUse = self.CQLFile.inUse ∧
    self.TakeTableSnapshot.CQLFile.CQLTableID = self.CQLFile.CQLTableID ∧
    self.TakeTableSnapshot.CQLFile.cqlFilePath = self.CQLFile.cqlFilePath := by
  refine ⟨?_, ?_, ?_, rfl, rfl, rfl, rfl, rfl, rfl, rfl⟩
  · simp [CQLAPI.TakeTableSnapshot]
  · simp [CQLAPI.TakeTableSnapshot]
  · simp [CQLAPI.TakeTableSnapshot]

/-- C19, on the code: the snapshot that `TakeTableSnapshot` captures is a copy
of the table's map of `CQLColumn*`, not of the columns.  After every
`InsertColumn` that returns, the captured table maps the column's name to
`&column`, the destroyed parameter of that call: the snapshot holds no rows or
row values of its own, and reading the column through it is an invalid
dereference.  `AddRow` on the live table, one of the mutations of the claim,
ends in an invalid dereference as well. -/
theorem tableSnapshot_shares_dangling_columns (self : CQLAPI) (column : CQLColumn)
    (generator : List Nat) (next : CQLAPI) (row : CQLRow) (entropy : Nat)
    (h : self.InsertColumn column generator = some next) :
    ∃ table entry,
      next.TakeTableSnapshot.CQLFile.tableSnapshots.getLast? = some table ∧
      umapFind table.columns column.columnName = some entry ∧
      entry.deref = Except.error Fault.invalid_dereference ∧
      next.TakeTableSnapshot.AddRow column.columnName row entropy =
        Except.error Fault.invalid_dereference := by
  obtain ⟨columnId, _, hcols, _⟩ := InsertColumn_columns self column generator next h
  refine ⟨next.CQLFile.savedTable,
    Ptr.dangling { column with inUse := true, columnId := columnId }, ?_, ?_, rfl, rfl⟩
  · simp [CQLAPI.TakeTableSnapshot]
  · rw [hcols]
    exact umapFind_umapAssign_self _ _ _

/-- Witness of `tableSnapshot_shares_dangling_columns`: the snapshot taken
after `InsertColumn` of the column `"a"`. -/
theorem tableSnapshot_shares_dangling_columns_witness :
    CQLAPI.fresh.InsertColumn (columnNamed "a") [41] = some CQLAPI.freshWithA ∧
    CQLAPI.freshWithASnapshot.CQLFile.tableSnapshots =
      [{ tableName := "", rows := [],
         columns :=
          [("a", Ptr.dangling { columnNamed "a" with inUse := true, columnId := 42 })] }] ∧
    ∃ table entry,
      CQLAPI.freshWithA.TakeTableSnapshot.CQLFile.tableSnapshots.getLast? = some table ∧
      umapFind table.columns (columnNamed "a").columnName = some entry ∧
      entry.deref = Except.error Fault.invalid_dereference ∧
      CQLAPI.freshWithA.TakeTableSnapshot.AddRow (columnNamed "a").columnName textRow 5 =
        Except.error Fault.invalid_dereference :=
  ⟨rfl, rfl,
   tableSnapshot_shares_dangling_columns CQLAPI.fresh (columnNamed "a") [41] CQLAPI.freshWithA
     textRow 5 rfl⟩

/-- C20: `RowDataIsNumeric(row)` is true exactly when the row holds a value of
kind Integer (`CQL_INT`), BigInteger (`CQL_BIG_INT`) or Decimal
(`CQL_DECIMNAL`); it is false for every row holding Text or Boolean and for
every row holding no value. -/
theorem RowDataIsNumeric_iff (row : CQLRow) :
    (CQLAPI.RowDataIsNumeric row = true ↔
      (∃ v, row.rowData = some (AnyValue.CQL_INT v)) ∨
      (∃ v, row.rowData = some (AnyValue.CQL_BIG_INT v)) ∨
      (∃ v, row.rowData = some (AnyValue.CQL_DECIMNAL v))) ∧
    (∀ s, row.rowData = some (AnyValue.CQL_TEXT s) → CQLAPI.RowDataIsNumeric row = false) ∧
    (∀ b, row.rowData = some (AnyValue.CQL_BOOLEAN b) → CQLAPI.RowDataIsNumeric row = false) ∧
    (row.rowData = none → CQLAPI.RowDataIsNumeric row = false) := by
  unfold CQLAPI.RowDataIsNumeric
  refine ⟨?_, ?_, ?_, ?_⟩
  · cases hd : row.rowData with
    | none => simp
    | some v => cases v <;> simp [AnyValue.type]
  · intro s hs
    simp [hs, AnyValue.type]
  · intro b hb
    simp [hb, AnyValue.type]
  · intro hn
    simp [hn]

/-- Witness of `RowDataIsNumeric_iff`: a row holding the Text `"x"` is not
numeric, a row holding the Integer 30 is. -/
theorem RowDataIsNumeric_iff_witness :
    textRow.rowData = some (AnyValue.CQL_TEXT "x") ∧
    CQLAPI.RowDataIsNumeric textRow = false ∧
    CQLAPI.RowDataIsNumeric { textRow with rowData := some (AnyValue.CQL_INT 30) } = true :=
  ⟨rfl, (RowDataIsNumeric_iff textRow).2.1 "x" rfl,
   (RowDataIsNumeric_iff { textRow with rowData := some (AnyValue.CQL_INT 30) }).1.2
     (Or.inl ⟨30, rfl⟩)⟩

/-! ## Row text, file locking, logs and the draw range: claims C21, C22, C24, C25 -/

theorem RowDataToString_text (to_string_float : Double → String) (row : CQLRow) (s : String)
    (h : row.rowData = some (AnyValue.CQL_TEXT s)) :
    CQLAPI.RowDataToString to_string_float row = s := by
  simp [CQLAPI.RowDataToString, h]

theorem RowDataToString_int (to_string_float : Double → String) (row : CQLRow) (n : Int)
    (h : row.rowData = some (AnyValue.CQL_INT n) ∨ row.rowData = some (AnyValue.CQL_BIG_INT n)) :
    CQLAPI.RowDataToString to_string_float row = to_string_int n := by
  rcases h with h | h <;> simp [CQLAPI.RowDataToString, h]

/-- C21, on the code: `RowDataToString` has no branch for Boolean.  For every
row holding a Boolean, `true` or `false`, it returns the empty string, not the
text `"true"` or `"false"`; the Text, Integer and BigInteger branches return
the text unchanged and the decimal numeral. -/
theorem RowDataToString_boolean_is_empty (to_string_float : Double → String) (row : CQLRow)
    (b : Bool) (h : row.rowData = some (AnyValue.CQL_BOOLEAN b)) :
    CQLAPI.RowDataToString to_string_float row = "" ∧
    CQLAPI.RowDataToString to_string_float row ≠ "true" ∧
    CQLAPI.RowDataToString to_string_float row ≠ "false" := by
  have hempty : CQLAPI.RowDataToString to_string_float row = "" := by
    simp [CQLAPI.RowDataToString, h]
  rw [hempty]
  exact ⟨rfl, by decide, by decide⟩

/-- Witness of `RowDataToString_boolean_is_empty`: a row holding the Boolean
`true` is rendered as `""`, while the Integer -5 is rendered as `"-5"` and the
Text `"x"` as `"x"`. -/
theorem RowDataToString_boolean_is_empty_witness :
    ({ textRow with rowData := some (AnyValue.CQL_BOOLEAN true) } : CQLRow).rowData =
      some (AnyValue.CQL_BOOLEAN true) ∧
    CQLAPI.RowDataToString (fun _ => "0.000000")
      { textRow with rowData := some (AnyValue.CQL_BOOLEAN true) } = "" ∧
    CQLAPI.RowDataToString (fun _ => "0.000000")
      { textRow with rowData := some (AnyValue.CQL_INT (-5)) } = "-5" ∧
    CQLAPI.RowDataToString (fun _ => "0.000000") textRow = "x" :=
  ⟨rfl,
   (RowDataToString_boolean_is_empty (fun _ => "0.000000")
      { textRow with rowData := some (AnyValue.CQL_BOOLEAN true) } true rfl).1,
   by decide, by decide⟩

/-- C22, on the code: under `__unix__`, and when neither platform macro is
defined, `LockFile(path)` and `UnlockFile(path)` have an empty body: for every
path and every holder the call takes no lock and reaches the end of the
function without a `return` statement, so no holder is granted or refused.
`IsFileLocked` returns `true` on every platform for every path. -/
theorem LockFile_unix_has_no_body (GetFileHandle : String → Option Nat)
    (LockFileEx UnlockFileEx : Nat → Bool) (path : String) (platform : Platform) :
    FILE_LOCKING.LockFile Platform.unix GetFileHandle LockFileEx path =
      BoolCall.no_return_statement ∧
    FILE_LOCKING.UnlockFile Platform.unix GetFileHandle UnlockFileEx path =
      BoolCall.no_return_statement ∧
    FILE_LOCKING.LockFile Platform.other GetFileHandle LockFileEx path =
      BoolCall.no_return_statement ∧
    FILE_LOCKING.IsFileLocked platform path = BoolCall.returns true :=
  ⟨rfl, rfl, rfl, rfl⟩

theorem mapInsert_of_present {V : Type} (m : List (Int × V)) (key : Int) (old value : V)
    (hsorted : List.Pairwise (fun a b => a < b) (m.map Prod.fst))
    (h : mapFind m key = some old) : mapInsert m key value = m := by
  induction m with
  | nil => simp [mapFind] at h
  | cons e rest ih =>
    obtain ⟨k, v⟩ := e
    simp only [List.map_cons, List.pairwise_cons] at hsorted
    by_cases hk : k = key
    · subst hk
      simp [mapInsert]
    · have hrest : mapFind rest key = some old := by simpa [mapFind, hk] using h
      have hmem := mapFind_mem rest key old hrest
      have hlt : k < key := hsorted.1 key (List.mem_map.2 ⟨(key, old), hmem, rfl⟩)
      have hnlt : ¬ key < k := by omega
      simp [mapInsert, hnlt, Ne.symm hk, ih hsorted.2 hrest]

/-- C24, on the code: `Log` does not always record the message.  The logs are
a `std::map` keyed by the timestamp and `Log` calls `insert`: for every
document whose logs already hold an entry for the current timestamp, the logs
after `Log(text)` are the logs before it, with the old message under that
timestamp.  A document in use with a log entry at the time 100 that is
deactivated by `MakeNewDocument` at the time 100 carries no deactivation entry
in its snapshot. -/
theorem Log_keeps_logs_of_used_timestamp (self : CQLDocument) (text old : String) (now : Int)
    (hsorted : List.Pairwise (fun a b => a < b) (self.documentMetadata.logs.map Prod.fst))
    (hused : mapFind self.documentMetadata.logs now = some old) :
    (self.Log text now).documentMetadata.logs = self.documentMetadata.logs ∧
    (self.Log text now).documentMetadata.logs.length = self.documentMetadata.logs.length ∧
    mapFind (self.Log text now).documentMetadata.logs now = some old ∧
    (({ CQLFile := loggedDocument } : CQLAPI).MakeNewDocument "B" "/tmp" 100 8 100
        true).CQLFile.documentSnapshots.map (fun document => document.documentMetadata.logs) =
      [[(100, "created")]] := by
  have h : (self.Log text now).documentMetadata.logs = self.documentMetadata.logs := by
    simp only [CQLDocument.Log]
    exact mapInsert_of_present _ _ _ _ hsorted hused
  rw [h]
  exact ⟨rfl, rfl, hused, by decide⟩

/-- Witness of `Log_keeps_logs_of_used_timestamp`: the document whose logs
hold `"created"` at the time 100 receives `Log("second")` at the time 100. -/
theorem Log_keeps_logs_of_used_timestamp_witness :
    List.Pairwise (fun a b => a < b) (loggedDocument.documentMetadata.logs.map Prod.fst) ∧
    mapFind loggedDocument.documentMetadata.logs 100 = some "created" ∧
    (loggedDocument.Log "second" 100).documentMetadata.logs = [(100, "created")] :=
  ⟨by simp [loggedDocument], rfl,
   (Log_keeps_logs_of_used_timestamp loggedDocument "second" "created" 100
      (by simp [loggedDocument]) rfl).1⟩

theorem drawRange_nodup (n : Nat) : (drawRange n).Nodup := by
  unfold drawRange
  refine List.Nodup.map ?_ (List.nodup_range _)
  intro a b hab
  simpa using hab

theorem mem_drawRange (n : Nat) (columnId : Int) (h : columnId ∈ drawRange n) :
    ∃ i : Nat, i < 10000 + n ∧ columnId = (i : Int) + 1 := by
  unfold drawRange at h
  obtain ⟨i, hi, hid⟩ := List.mem_map.1 h
  exact ⟨i, List.mem_range.1 hi, hid.symm⟩

theorem mem_keys_of_mapFind_isSome {V : Type} (m : List (Int × V)) (key : Int)
    (h : (mapFind m key).isSome = true) : key ∈ m.map Prod.fst := by
  cases hfind : mapFind m key with
  | none => rw [hfind] at h; simp at h
  | some v => exact List.mem_map.2 ⟨(key, v), mapFind_mem m key v hfind, rfl⟩

theorem keyed_length_le {V : Type} (m : List (Int × V)) (range : List Int)
    (hnodup : range.Nodup) :
    (range.filter (fun columnId => (mapFind m columnId).isSome)).length ≤ m.length := by
  have hsub : range.filter (fun columnId => (mapFind m columnId).isSome) ⊆ m.map Prod.fst := by
    intro columnId hmem
    exact mem_keys_of_mapFind_isSome m columnId (List.mem_filter.1 hmem).2
  have hnd : (range.filter (fun columnId => (mapFind m columnId).isSome)).Nodup :=
    hnodup.filter _
  have hle := (List.subperm_of_subset hnd hsub).length_le
  simpa using hle

theorem uniform_int_distribution_of_lt (n i : Nat) (h : i < 10000 + n) :
    uniform_int_distribution 1 (10000 + n) i = i + 1 := by
  unfold uniform_int_distribution
  have hmod : i % (10000 + n - 1 + 1) = i := Nat.mod_eq_of_lt (by omega)
  omega

/-- C25: in every document state, with `n` the size of the ID index, the draw
range `[1, 10000 + n]` of `InsertColumn` contains at least 10000 ids that are
not keys of the ID index; so there is a draw on which the collision loop exits
and `InsertColumn` returns. -/
theorem freeIds_at_least_10000 (self : CQLAPI) :
    10000 ≤ self.freeIds.length ∧
    self.freeIds.Nodup ∧
    (∀ columnId ∈ self.freeIds,
      1 ≤ columnId ∧ columnId ≤ 10000 + (self.CQLFile.columnHashmaps.length : Int) ∧
      mapFind self.CQLFile.columnHashmaps columnId = none) ∧
    (∃ entropy, self.hasFreeDraw [entropy] ∧
      ∀ column, ∃ next, self.InsertColumn column [entropy] = some next) := by
  have hcount : (drawRange self.CQLFile.columnHashmaps.length).length =
      10000 + self.CQLFile.columnHashmaps.length := by
    simp [drawRange]
  have hsplit := List.length_eq_countP_add_countP
    (fun columnId => (mapFind self.CQLFile.columnHashmaps columnId).isNone)
    (drawRange self.CQLFile.columnHashmaps.length)
  have hkeyed := keyed_length_le self.CQLFile.columnHashmaps
    (drawRange self.CQLFile.columnHashmaps.length) (drawRange_nodup _)
  have hneg : List.countP
      (fun a => decide ¬(mapFind self.CQLFile.columnHashmaps a).isNone = true)
      (drawRange self.CQLFile.columnHashmaps.length) =
      ((drawRange self.CQLFile.columnHashmaps.length).filter
        (fun columnId => (mapFind self.CQLFile.columnHashmaps columnId).isSome)).length := by
    rw [List.countP_eq_length_filter]
    congr 2
    funext a
    cases mapFind self.CQLFile.columnHashmaps a <;> rfl
  have hlen : 10000 ≤ self.freeIds.length := by
    unfold CQLAPI.freeIds
    rw [← List.countP_eq_length_filter]
    omega
  have hprops : ∀ columnId ∈ self.freeIds,
      1 ≤ columnId ∧ columnId ≤ 10000 + (self.CQLFile.columnHashmaps.length : Int) ∧
      mapFind self.CQLFile.columnHashmaps columnId = none := by
    intro columnId hmem
    obtain ⟨hrange, hfree⟩ := List.mem_filter.1 hmem
    obtain ⟨i, hi, hid⟩ := mem_drawRange _ _ hrange
    refine ⟨by omega, by omega, ?_⟩
    simpa using hfree
  refine ⟨hlen, (drawRange_nodup _).filter _, hprops, ?_⟩
  have hne : self.freeIds ≠ [] := by
    intro hnil
    rw [hnil] at hlen
    simp at hlen
  obtain ⟨columnId, hmem⟩ := List.exists_mem_of_ne_nil _ hne
  obtain ⟨hrange, _⟩ := List.mem_filter.1 hmem
  obtain ⟨i, hi, hid⟩ := mem_drawRange _ _ hrange
  have hfree := (hprops columnId hmem).2.2
  have hdraw : self.hasFreeDraw [i] := by
    refine ⟨i, List.mem_singleton.2 rfl, ?_⟩
    rw [uniform_int_distribution_of_lt _ _ hi]
    rw [hid] at hfree
    exact_mod_cast hfree
  refine ⟨i, hdraw, ?_⟩
  intro column
  obtain ⟨cid, hcid⟩ := drawColumnId_isSome _ _ hdraw
  exact InsertColumn_of_draw self column [i] cid hcid


/-! ## The collision loop and the consistency of the two indexes: lemmas -/

theorem drawColumnId_of_all_used (m : List (Int × CQLColumn)) (generator : List Nat)
    (h : ∀ entropy ∈ generator,
      (mapFind m ((uniform_int_distribution 1 (10000 + m.length) entropy : Nat) : Int)).isSome =
        true) :
    CQLAPI.drawColumnId m generator = none := by
  induction generator with
  | nil => rfl
  | cons entropy rest ih =>
    have hhead := h entropy (List.mem_cons.2 (Or.inl rfl))
    have hrest := ih (fun e he => h e (List.mem_cons.2 (Or.inr he)))
    simp [CQLAPI.drawColumnId, hhead, hrest]

theorem drawColumnId_append_of_used (m : List (Int × CQLColumn)) (used rest : List Nat)
    (h : ∀ entropy ∈ used,
      (mapFind m ((uniform_int_distribution 1 (10000 + m.length) entropy : Nat) : Int)).isSome =
        true) :
    CQLAPI.drawColumnId m (used ++ rest) = CQLAPI.drawColumnId m rest := by
  induction used with
  | nil => rfl
  | cons entropy tail ih =>
    have hhead := h entropy (List.mem_cons.2 (Or.inl rfl))
    have htail := ih (fun e he => h e (List.mem_cons.2 (Or.inr he)))
    simp [CQLAPI.drawColumnId, hhead, htail]

theorem drawColumnId_of_free (m : List (Int × CQLColumn)) (free : Nat) (rest : List Nat)
    (h : mapFind m ((uniform_int_distribution 1 (10000 + m.length) free : Nat) : Int) = none) :
    CQLAPI.drawColumnId m (free :: rest) =
      some ((uniform_int_distribution 1 (10000 + m.length) free : Nat) : Int) := by
  simp [CQLAPI.drawColumnId, h]

theorem InsertColumn_congr (self : CQLAPI) (column : CQLColumn) (g1 g2 : List Nat)
    (h : CQLAPI.drawColumnId self.CQLFile.columnHashmaps g1 =
      CQLAPI.drawColumnId self.CQLFile.columnHashmaps g2) :
    self.InsertColumn column g1 = self.InsertColumn column g2 := by
  unfold CQLAPI.InsertColumn
  rw [h]

theorem umapFind_eq_none_iff {V : Type} (m : List (String × V)) (key : String) :
    umapFind m key = none ↔ key ∉ m.map Prod.fst := by
  induction m with
  | nil => simp [umapFind]
  | cons e rest ih =>
    obtain ⟨k, v⟩ := e
    by_cases hk : k = key
    · simp [umapFind, hk]
    · simp only [umapFind, hk, if_false, ih, List.map_cons, List.mem_cons]
      constructor
      · intro h hmem
        rcases hmem with hmem | hmem
        · exact hk hmem.symm
        · exact h hmem
      · intro h hmem
        exact h (Or.inr hmem)

theorem umapAssign_of_absent {V : Type} (m : List (String × V)) (key : String) (value : V)
    (h : umapFind m key = none) : umapAssign m key value = m ++ [(key, value)] := by
  induction m with
  | nil => rfl
  | cons e rest ih =>
    obtain ⟨k, v⟩ := e
    by_cases hk : k = key
    · simp [umapFind, hk] at h
    · have hrest : umapFind rest key = none := by simpa [umapFind, hk] using h
      simp [umapAssign, hk, ih hrest]

theorem umapErase_of_absent {V : Type} (m : List (String × V)) (key : String)
    (h : umapFind m key = none) : umapErase m key = m := by
  induction m with
  | nil => rfl
  | cons e rest ih =>
    obtain ⟨k, v⟩ := e
    by_cases hk : k = key
    · simp [umapFind, hk] at h
    · have hrest : umapFind rest key = none := by simpa [umapFind, hk] using h
      simp [umapErase, hk, ih hrest]

theorem keys_mapInsert_perm {V : Type} (m : List (Int × V)) (key : Int) (value : V)
    (h : mapFind m key = none) :
    List.Perm ((mapInsert m key value).map Prod.fst) (key :: m.map Prod.fst) := by
  induction m with
  | nil => simp [mapInsert]
  | cons e rest ih =>
    obtain ⟨k, v⟩ := e
    have hk : k ≠ key := by
      intro hk
      simp [mapFind, hk] at h
    have hrest : mapFind rest key = none := by simpa [mapFind, hk] using h
    by_cases hlt : key < k
    · simp [mapInsert, hlt]
    · simp only [mapInsert, hlt, Ne.symm hk, if_false, List.map_cons]
      exact ((ih hrest).cons k).trans (List.Perm.swap key k _)

theorem keys_mapErase_sublist {V : Type} (m : List (Int × V)) (key : Int) :
    List.Sublist ((mapErase m key).map Prod.fst) (m.map Prod.fst) := by
  induction m with
  | nil => simp [mapErase]
  | cons e rest ih =>
    obtain ⟨k, v⟩ := e
    by_cases hk : k = key
    · simp only [mapErase, hk, if_true, List.map_cons]
      exact List.Sublist.cons _ (by simpa [hk] using ih)
    · simp only [mapErase, hk, if_false, List.map_cons]
      exact List.Sublist.cons₂ _ ih

theorem keys_umapErase_sublist {V : Type} (m : List (String × V)) (key : String) :
    List.Sublist ((umapErase m key).map Prod.fst) (m.map Prod.fst) := by
  induction m with
  | nil => simp [umapErase]
  | cons e rest ih =>
    obtain ⟨k, v⟩ := e
    by_cases hk : k = key
    · simp only [umapErase, hk, if_true, List.map_cons]
      exact List.Sublist.cons _ (by simpa [hk] using ih)
    · simp only [umapErase, hk, if_false, List.map_cons]
      exact List.Sublist.cons₂ _ ih

theorem length_mapErase_of_present {V : Type} (m : List (Int × V)) (key : Int)
    (hnodup : (m.map Prod.fst).Nodup) (h : (mapFind m key).isSome = true) :
    (mapErase m key).length + 1 = m.length := by
  induction m with
  | nil => simp [mapFind] at h
  | cons e rest ih =>
    obtain ⟨k, v⟩ := e
    simp only [List.map_cons, List.nodup_cons] at hnodup
    by_cases hk : k = key
    · subst hk
      have habsent : mapFind rest k = none := by
        rw [mapFind_eq_none_iff]
        intro entry hentry heq
        exact hnodup.1 (List.mem_map.2 ⟨entry, hentry, heq⟩)
      simp [mapErase, mapErase_of_not_key rest k habsent]
    · have hrest : (mapFind rest key).isSome = true := by simpa [mapFind, hk] using h
      simp [mapErase, hk, ih hnodup.2 hrest]

theorem length_umapErase_of_present {V : Type} (m : List (String × V)) (key : String)
    (hnodup : (m.map Prod.fst).Nodup) (h : (umapFind m key).isSome = true) :
    (umapErase m key).length + 1 = m.length := by
  induction m with
  | nil => simp [umapFind] at h
  | cons e rest ih =>
    obtain ⟨k, v⟩ := e
    simp only [List.map_cons, List.nodup_cons] at hnodup
    by_cases hk : k = key
    · subst hk
      have habsent : umapFind rest k = none := (umapFind_eq_none_iff rest k).2 hnodup.1
      simp [umapErase, umapErase_of_absent rest k habsent]
    · have hrest : (umapFind rest key).isSome = true := by simpa [umapFind, hk] using h
      simp [umapErase, hk, ih hnodup.2 hrest]

theorem RemoveColumn_int_cases (self : CQLAPI) (columnID : Int) :
    self.RemoveColumn_int columnID = self ∨
    ∃ col, mapFind self.CQLFile.columnHashmaps columnID = some col ∧
      col.columnName ≠ _BAD_COLUMN ∧
      self.RemoveColumn_int columnID =
        { CQLFile := { self.CQLFile with
            columnHashmaps := mapErase self.CQLFile.columnHashmaps col.columnId
            savedTable := { self.CQLFile.savedTable with
              columns := umapErase self.CQLFile.savedTable.columns col.columnName } } } := by
  cases hfind : mapFind self.CQLFile.columnHashmaps columnID with
  | none =>
    left
    unfold CQLAPI.RemoveColumn_int CQLAPI.GetColumn_int
    simp [hfind]
  | some col =>
    by_cases hname : col.columnName = _BAD_COLUMN
    · left
      unfold CQLAPI.RemoveColumn_int CQLAPI.GetColumn_int
      simp [hfind, hname]
    · right
      exact ⟨col, rfl, hname, RemoveColumn_int_of_found self columnID col hfind hname⟩


theorem InsertColumn_indexInvariant (self : CQLAPI) (column : CQLColumn) (generator : List Nat)
    (next : CQLAPI) (hinv : self.indexInvariant)
    (hname : umapFind self.CQLFile.savedTable.columns column.columnName = none)
    (h : self.InsertColumn column generator = some next) : next.indexInvariant := by
  obtain ⟨⟨hlen, hA, hB⟩, hnd1, hnd2, hC⟩ := hinv
  obtain ⟨cid, hdraw, hmap⟩ := InsertColumn_some self column generator next h
  obtain ⟨cid2, hdraw2, hcols, _⟩ := InsertColumn_columns self column generator next h
  rw [hdraw] at hdraw2
  have hcid := Option.some.inj hdraw2
  subst hcid
  have hfree := (drawColumnId_some _ _ _ hdraw).1
  have hfindNew : ∀ columnId c, mapFind next.CQLFile.columnHashmaps columnId = some c →
      (columnId = cid ∧ c = { column with inUse := true, columnId := cid }) ∨
      (columnId ≠ cid ∧ mapFind self.CQLFile.columnHashmaps columnId = some c) := by
    intro columnId c hfind
    rw [hmap] at hfind
    by_cases hid : columnId = cid
    · subst hid
      rw [mapFind_mapInsert_self _ _ _ hfree] at hfind
      exact Or.inl ⟨rfl, (Option.some.inj hfind).symm⟩
    · rw [mapFind_mapInsert_of_ne _ _ _ _ hid] at hfind
      exact Or.inr ⟨hid, hfind⟩
  have hnameNew : ∀ name, (umapFind self.CQLFile.savedTable.columns name).isSome = true →
      (umapFind next.CQLFile.savedTable.columns name).isSome = true := by
    intro name hsome
    rw [hcols]
    by_cases hn : name = column.columnName
    · rw [hn, umapFind_umapAssign_self]
      rfl
    · rw [umapFind_umapAssign_of_ne _ _ _ _ hn]
      exact hsome
  refine ⟨⟨?_, ?_, ?_⟩, ?_, ?_, ?_⟩
  · rw [hmap, hcols, length_mapInsert _ _ _ hfree, umapAssign_of_absent _ _ _ hname]
    simp [hlen]
  · intro columnId c hfind
    rcases hfindNew columnId c hfind with ⟨hid, hc⟩ | ⟨_, hold⟩
    · subst hc
      refine ⟨hid.symm, ?_⟩
      rw [hcols]
      show (umapFind (umapAssign self.CQLFile.savedTable.columns column.columnName _)
        column.columnName).isSome = true
      rw [umapFind_umapAssign_self]
      rfl
    · exact ⟨(hA columnId c hold).1, hnameNew _ (hA columnId c hold).2⟩
  · intro name hsome
    by_cases hn : name = column.columnName
    · refine ⟨cid, { column with inUse := true, columnId := cid }, ?_, hn.symm⟩
      rw [hmap]
      exact mapFind_mapInsert_self _ _ _ hfree
    · rw [hcols, umapFind_umapAssign_of_ne _ _ _ _ hn] at hsome
      obtain ⟨columnId, c, hfind, hcn⟩ := hB name hsome
      have hid : columnId ≠ cid := by
        intro hid
        rw [hid, hfree] at hfind
        exact Option.noConfusion hfind
      refine ⟨columnId, c, ?_, hcn⟩
      rw [hmap, mapFind_mapInsert_of_ne _ _ _ _ hid]
      exact hfind
  · rw [hmap, (keys_mapInsert_perm _ _ _ hfree).nodup_iff, List.nodup_cons]
    refine ⟨?_, hnd1⟩
    intro hmem
    obtain ⟨entry, hentry, hkey⟩ := List.mem_map.1 hmem
    exact (mapFind_eq_none_iff _ _).1 hfree entry hentry hkey
  · rw [hcols, umapAssign_of_absent _ _ _ hname, List.map_append, List.map_singleton,
      (List.perm_append_singleton column.columnName _).nodup_iff, List.nodup_cons]
    exact ⟨(umapFind_eq_none_iff _ _).1 hname, hnd2⟩
  · intro id1 id2 c1 c2 h1 h2 hnames
    rcases hfindNew id1 c1 h1 with ⟨hid1, hc1⟩ | ⟨_, hold1⟩
    · rcases hfindNew id2 c2 h2 with ⟨hid2, _⟩ | ⟨_, hold2⟩
      · rw [hid1, hid2]
      · exfalso
        have hsome := (hA id2 c2 hold2).2
        rw [← hnames, hc1] at hsome
        rw [show ({ column with inUse := true, columnId := cid } : CQLColumn).columnName =
          column.columnName from rfl, hname] at hsome
        simp at hsome
    · rcases hfindNew id2 c2 h2 with ⟨_, hc2⟩ | ⟨_, hold2⟩
      · exfalso
        have hsome := (hA id1 c1 hold1).2
        rw [hnames, hc2] at hsome
        rw [show ({ column with inUse := true, columnId := cid } : CQLColumn).columnName =
          column.columnName from rfl, hname] at hsome
        simp at hsome
      · exact hC id1 id2 c1 c2 hold1 hold2 hnames

theorem RemoveColumn_int_indexInvariant (self : CQLAPI) (columnID : Int)
    (hinv : self.indexInvariant) : (self.RemoveColumn_int columnID).indexInvariant := by
  rcases RemoveColumn_int_cases self columnID with hsame | ⟨col, hfind, _, herase⟩
  · rw [hsame]
    exact hinv
  · obtain ⟨⟨hlen, hA, hB⟩, hnd1, hnd2, hC⟩ := hinv
    have hid : col.columnId = columnID := (hA columnID col hfind).1
    have hcolname := (hA columnID col hfind).2
    rw [herase, hid]
    have hfindNew : ∀ columnId c,
        mapFind (mapErase self.CQLFile.columnHashmaps columnID) columnId = some c →
        columnId ≠ columnID ∧ mapFind self.CQLFile.columnHashmaps columnId = some c ∧
          c.columnName ≠ col.columnName := by
      intro columnId c hf
      have hne : columnId ≠ columnID := by
        intro heq
        rw [heq, mapFind_mapErase_self] at hf
        exact Option.noConfusion hf
      rw [mapFind_mapErase_of_ne _ _ _ hne] at hf
      refine ⟨hne, hf, ?_⟩
      intro hnames
      exact hne (hC columnId columnID c col hf hfind hnames)
    refine ⟨⟨?_, ?_, ?_⟩, ?_, ?_, ?_⟩
    · show (mapErase self.CQLFile.columnHashmaps columnID).length =
        (umapErase self.CQLFile.savedTable.columns col.columnName).length
      have h1 := length_mapErase_of_present self.CQLFile.columnHashmaps columnID hnd1
        (by rw [hfind]; rfl)
      have h2 := length_umapErase_of_present self.CQLFile.savedTable.columns col.columnName
        hnd2 hcolname
      omega
    · intro columnId c hf
      obtain ⟨_, hold, hnames⟩ := hfindNew columnId c hf
      refine ⟨(hA columnId c hold).1, ?_⟩
      show (umapFind (umapErase self.CQLFile.savedTable.columns col.columnName)
        c.columnName).isSome = true
      rw [umapFind_umapErase_of_ne _ _ _ hnames]
      exact (hA columnId c hold).2
    · intro name hsome
      have hsome2 : (umapFind (umapErase self.CQLFile.savedTable.columns col.columnName)
          name).isSome = true := hsome
      have hn : name ≠ col.columnName := by
        intro heq
        rw [heq, umapFind_umapErase_self] at hsome2
        simp at hsome2
      rw [umapFind_umapErase_of_ne _ _ _ hn] at hsome2
      obtain ⟨columnId, c, hf, hcn⟩ := hB name hsome2
      have hne : columnId ≠ columnID := by
        intro heq
        rw [heq, hfind] at hf
        have hc := Option.some.inj hf
        rw [← hc] at hcn
        exact hn hcn.symm
      refine ⟨columnId, c, ?_, hcn⟩
      show mapFind (mapErase self.CQLFile.columnHashmaps columnID) columnId = some c
      rw [mapFind_mapErase_of_ne _ _ _ hne]
      exact hf
    · exact hnd1.sublist (keys_mapErase_sublist _ _)
    · exact hnd2.sublist (keys_umapErase_sublist _ _)
    · intro id1 id2 c1 c2 h1 h2 hnames
      exact hC id1 id2 c1 c2 (hfindNew id1 c1 h1).2.1 (hfindNew id2 c2 h2).2.1 hnames

theorem run_indexInvariant (calls : List Call) :
    ∀ (self final : CQLAPI), self.indexInvariant →
      self.insertsAbsentNames calls = true →
      self.run calls = some final → final.indexInvariant := by
  induction calls with
  | nil =>
    intro self final hinv _ hrun
    simp [CQLAPI.run] at hrun
    subst hrun
    exact hinv
  | cons call rest ih =>
    intro self final hinv habsent hrun
    cases call with
    | InsertColumn column generator =>
      simp only [CQLAPI.insertsAbsentNames, Bool.and_eq_true] at habsent
      simp only [CQLAPI.run] at hrun
      cases hins : self.InsertColumn column generator with
      | none => rw [hins] at hrun; simp at hrun
      | some next =>
        rw [hins] at hrun
        have hrest := habsent.2
        rw [hins] at hrest
        have hname : umapFind self.CQLFile.savedTable.columns column.columnName = none := by
          simpa using habsent.1
        exact ih next final (InsertColumn_indexInvariant _ _ _ _ hinv hname hins) hrest hrun
    | RemoveColumn columnID =>
      simp only [CQLAPI.insertsAbsentNames] at habsent
      simp only [CQLAPI.run] at hrun
      exact ih _ final (RemoveColumn_int_indexInvariant _ _ hinv) habsent hrun


/-! ## The collision loop, and the consistency of the two indexes: claim C26 -/

/-- The collision loop of `InsertColumn` has no retry counter and no failure
outcome: for every document state it redraws as long as the drawn id is a key
of the ID index and accepts the first drawn id that is not.  After any number
of colliding draws followed by a free one the call returns with the id of the
free draw; while every draw delivered so far collides the loop has not
ended.  Which draws `std::mt19937` delivers is not part of the embedding. -/
theorem InsertColumn_redraws_until_free (self : CQLAPI) (column : CQLColumn)
    (used rest : List Nat) (free : Nat)
    (hused : ∀ entropy ∈ used,
      (mapFind self.CQLFile.columnHashmaps
        ((uniform_int_distribution 1 (10000 + self.CQLFile.columnHashmaps.length) entropy : Nat) :
          Int)).isSome = true)
    (hfree : mapFind self.CQLFile.columnHashmaps
      ((uniform_int_distribution 1 (10000 + self.CQLFile.columnHashmaps.length) free : Nat) :
        Int) = none) :
    CQLAPI.drawColumnId self.CQLFile.columnHashmaps (used ++ free :: rest) =
      some ((uniform_int_distribution 1 (10000 + self.CQLFile.columnHashmaps.length) free : Nat) :
        Int) ∧
    self.InsertColumn column (used ++ free :: rest) = self.InsertColumn column [free] ∧
    (∃ next, self.InsertColumn column (used ++ free :: rest) = some next) ∧
    self.InsertColumn column used = none := by
  have hdraw : CQLAPI.drawColumnId self.CQLFile.columnHashmaps (used ++ free :: rest) =
      some ((uniform_int_distribution 1 (10000 + self.CQLFile.columnHashmaps.length) free : Nat) :
        Int) := by
    rw [drawColumnId_append_of_used _ _ _ hused]
    exact drawColumnId_of_free _ _ _ hfree
  refine ⟨hdraw, ?_, ?_, ?_⟩
  · apply InsertColumn_congr
    rw [hdraw, drawColumnId_of_free _ _ _ hfree]
  · exact InsertColumn_of_draw self column _ _ hdraw
  · unfold CQLAPI.InsertColumn
    rw [drawColumnId_of_all_used _ _ hused]

/-- Witness of `InsertColumn_redraws_until_free`: on the document that holds
`"a"` under 42 the draws 41, 41, 41 collide and the draw 99 is free; the call
returns with the id 100. -/
theorem InsertColumn_redraws_until_free_witness :
    (∀ entropy ∈ [41, 41, 41],
      (mapFind CQLAPI.freshWithA.CQLFile.columnHashmaps
        ((uniform_int_distribution 1 (10000 + CQLAPI.freshWithA.CQLFile.columnHashmaps.length)
          entropy : Nat) : Int)).isSome = true) ∧
    mapFind CQLAPI.freshWithA.CQLFile.columnHashmaps
      ((uniform_int_distribution 1 (10000 + CQLAPI.freshWithA.CQLFile.columnHashmaps.length)
        99 : Nat) : Int) = none ∧
    CQLAPI.drawColumnId CQLAPI.freshWithA.CQLFile.columnHashmaps ([41, 41, 41] ++ 99 :: [5]) =
      some 100 ∧
    CQLAPI.freshWithA.InsertColumn (columnNamed "b") [41, 41, 41] = none :=
  ⟨by decide, rfl,
   (InsertColumn_redraws_until_free CQLAPI.freshWithA (columnNamed "b") [41, 41, 41] [5] 99
      (by decide) rfl).1,
   (InsertColumn_redraws_until_free CQLAPI.freshWithA (columnNamed "b") [41, 41, 41] [5] 99
      (by decide) rfl).2.2.2⟩

theorem fresh_indexInvariant : CQLAPI.fresh.indexInvariant := by
  refine ⟨⟨rfl, ?_, ?_⟩, ?_, ?_, ?_⟩
  · intro columnId column h
    simp [CQLAPI.fresh, mapFind] at h
  · intro name h
    simp [CQLAPI.fresh, umapFind] at h
  · simp [CQLAPI.fresh]
  · simp [CQLAPI.fresh]
  · intro id1 id2 column1 column2 h
    simp [CQLAPI.fresh, mapFind] at h

/-- C26, counterexample: two columns named `"a"` are inserted into a
default-constructed `CQLAPI`; the ID index then holds two columns and the name
index one entry. -/
theorem duplicate_name_breaks_index_count :
    (CQLAPI.fresh.run
      [Call.InsertColumn (columnNamed "a") [41], Call.InsertColumn (columnNamed "a") [7]]).map
      (fun final =>
        (final.CQLFile.columnHashmaps.length, final.CQLFile.savedTable.columns.length)) =
      some (2, 1) := by
  decide

/-- C26, amended: in every state reached from a default-constructed `CQLAPI`
by a sequence of `InsertColumn` and `RemoveColumn(id)` calls in which no
`InsertColumn` inserts a name that is in the name index at the time of the
call, the two indexes have the same number of entries, every column of the ID
index is stored under its own id and has its name as a key of the name index,
and every key of the name index is the name of a column of the ID index. -/
theorem indexes_consistent_of_absent_names (calls : List Call) (final : CQLAPI)
    (hnames : CQLAPI.fresh.insertsAbsentNames calls = true)
    (hrun : CQLAPI.fresh.run calls = some final) :
    final.CQLFile.columnHashmaps.length = final.CQLFile.savedTable.columns.length ∧
    (∀ columnId column, mapFind final.CQLFile.columnHashmaps columnId = some column →
      column.columnId = columnId ∧
      (umapFind final.CQLFile.savedTable.columns column.columnName).isSome = true) ∧
    (∀ name, (umapFind final.CQLFile.savedTable.columns name).isSome = true →
      ∃ columnId column, mapFind final.CQLFile.columnHashmaps columnId = some column ∧
        column.columnName = name) :=
  (run_indexInvariant calls CQLAPI.fresh final fresh_indexInvariant hnames hrun).1

/-- Witness of `indexes_consistent_of_absent_names`: the columns `"a"` and
`"b"` are inserted under the ids 42 and 100 and `"a"` is removed; both indexes
hold the one column `"b"`. -/
theorem indexes_consistent_of_absent_names_witness :
    CQLAPI.fresh.insertsAbsentNames
      [Call.InsertColumn (columnNamed "a") [41], Call.InsertColumn (columnNamed "b") [41, 99],
       Call.RemoveColumn 42] = true ∧
    CQLAPI.fresh.run
      [Call.InsertColumn (columnNamed "a") [41], Call.InsertColumn (columnNamed "b") [41, 99],
       Call.RemoveColumn 42] = some CQLAPI.freshWithB ∧
    CQLAPI.freshWithB.CQLFile.columnHashmaps.length =
      CQLAPI.freshWithB.CQLFile.savedTable.columns.length :=
  ⟨by decide, rfl,
   (indexes_consistent_of_absent_names
      [Call.InsertColumn (columnNamed "a") [41], Call.InsertColumn (columnNamed "b") [41, 99],
       Call.RemoveColumn 42] CQLAPI.freshWithB (by decide) rfl).1⟩

end CQL
